import Mathlib

/-!
# Raspberry Pi firmware clock provider and cpufreq driver

A shallow embedding of `drivers/clk/clk-raspberrypi.c` (together with
`include/dt-bindings/clk/raspberrypi.h`) and of `drivers/cpufreq/raspberry-cpufreq.c`,
and theorems about them.

Conventions of the embedding

* C pointers to kernel objects are identifiers (`Nat`); a pointer that may be
  `NULL` is an `Option`.  A `struct clk *` is a `clk_ptr`: `NULL`, a valid
  pointer, or an `ERR_PTR`.
* `u32` words are `Nat` below `2 ^ 32`; conversions to `u32` are written out as
  `% 2 ^ 32`.  `unsigned long` is `BITS_PER_LONG` bits wide.
* Kernel services the driver calls but does not define (the device-tree
  lookups, `clk_register`, the firmware property transport) are parameters.
  Every call of the transport and of `clk_register` is recorded as an `Event`.
* `dev_err` / `dev_info` only log and are omitted.
-/

namespace RaspberryPiClk

/-! ## Kernel constants and types the driver uses -/

/-- Linux errno `ENODEV`, as in the kernel header include/uapi/asm-generic/errno-base.h. -/
def ENODEV : Int := 19

/-- Linux errno `EINVAL`, as in the kernel header include/uapi/asm-generic/errno-base.h. -/
def EINVAL : Int := 22

/-- Linux errno `EPROBE_DEFER`, as in the kernel header include/linux/errno.h. -/
def EPROBE_DEFER : Int := 517

/-- Clock flag `CLK_IGNORE_UNUSED`, `BIT(3)` in include/linux/clk-provider.h. -/
def CLK_IGNORE_UNUSED : Nat := 8

/-- Clock flag `CLK_IS_ROOT`, `BIT(4)` in include/linux/clk-provider.h. -/
def CLK_IS_ROOT : Nat := 16

/-- Width of `long` on the ARM platform of `arch/arm/mach-bcm` (ILP32). -/
def BITS_PER_LONG : Nat := 32

/-- Conversion of a C `int` to `u32`. -/
def u32_of_int (n : Int) : Nat := (n % 4294967296).toNat

/-- Conversion of an unsigned C value to `u32`. -/
def u32_of_nat (n : Nat) : Nat := n % 4294967296

/-- Identifier of a `struct device_node`. -/
abbrev device_node := Nat

/-- Identifier of a `struct platform_device`. -/
abbrev platform_device := Nat

/-- Identifier of a `struct device`; `&pdev->dev` is identified with `pdev`. -/
abbrev device := Nat

/-- A value of type `struct clk *`. -/
inductive clk_ptr where
  | NULL : clk_ptr
  | ptr (addr : Nat) : clk_ptr
  | ERR_PTR (err : Int) : clk_ptr
deriving DecidableEq, Repr

/-- Kernel `IS_ERR`. -/
def IS_ERR : clk_ptr → Bool
  | clk_ptr.ERR_PTR _ => true
  | _ => false

/-- The operation tables a `clk_init_data` can point to; this driver has one. -/
inductive clk_ops_ref where
  | rpi_clk_ops : clk_ops_ref
deriving DecidableEq, Repr

/-- The fields of `struct clk_init_data`; `memset` leaves the parent fields zero. -/
structure clk_init_data where
  name : String
  ops : Option clk_ops_ref
  num_parents : Nat
  flags : Nat
deriving DecidableEq, Repr

/-- The fields of `struct clk_hw` the driver reads or writes. -/
structure clk_hw where
  clk : clk_ptr
  init : Option clk_init_data
deriving DecidableEq, Repr

/-- Modelled from the spec: the opcode set of the firmware property protocol
(spec section 6); the header soc/bcm2835/raspberrypi-firmware-property.h that
declares the tags is not part of the sources at hand. -/
inductive rpi_firmware_property_tag where
  | RPI_FIRMWARE_GET_CLOCK_STATE
  | RPI_FIRMWARE_SET_CLOCK_STATE
  | RPI_FIRMWARE_GET_CLOCK_RATE
  | RPI_FIRMWARE_SET_CLOCK_RATE
  | RPI_FIRMWARE_GET_MAX_CLOCK_RATE
  | RPI_FIRMWARE_GET_MIN_CLOCK_RATE
deriving DecidableEq, Repr

/-- A call of a kernel service that the driver makes. -/
inductive Event where
  | rpi_firmware_property (node : Option device_node)
      (tag : rpi_firmware_property_tag) (packet : Nat × Nat) : Event
  | clk_register (dev : device) (hw : clk_hw) : Event
deriving DecidableEq, Repr

/-! ## include/dt-bindings/clk/raspberrypi.h -/

def RPI_CLOCK_EMMC : Nat := 0
def RPI_CLOCK_UART0 : Nat := 1
def RPI_CLOCK_ARM : Nat := 2
def RPI_CLOCK_CORE : Nat := 3
def RPI_CLOCK_V3D : Nat := 4
def RPI_CLOCK_H264 : Nat := 5
def RPI_CLOCK_ISP : Nat := 6
def RPI_CLOCK_SDRAM : Nat := 7
def RPI_CLOCK_PIXEL : Nat := 8
def RPI_CLOCK_PWM : Nat := 9

/-! ## drivers/clk/clk-raspberrypi.c : data -/

/-- The C `struct rpi_firmware_clock`. -/
structure rpi_firmware_clock where
  clock_id : Int
  name : String
  flags : Nat
  hw : clk_hw
  dev : Option device
  firmware_node : Option device_node
deriving DecidableEq, Repr

/-- A static initialiser `{ clock_id, name, flags }`: the remaining fields are zero. -/
def static_clock (clock_id : Int) (name : String) (flags : Nat) : rpi_firmware_clock :=
  { clock_id := clock_id, name := name, flags := flags,
    hw := { clk := clk_ptr.NULL, init := none }, dev := none, firmware_node := none }

/-- The static table `rpi_clocks[]`, written in the order of its designated indices
`RPI_CLOCK_EMMC` (0) to `RPI_CLOCK_PWM` (9). -/
def rpi_clocks : List rpi_firmware_clock :=
  [ static_clock 1 "emmc" (CLK_IS_ROOT ||| CLK_IGNORE_UNUSED),
    static_clock 2 "uart0" (CLK_IS_ROOT ||| CLK_IGNORE_UNUSED),
    static_clock 3 "arm" (CLK_IS_ROOT ||| CLK_IGNORE_UNUSED),
    static_clock 4 "core" (CLK_IS_ROOT ||| CLK_IGNORE_UNUSED),
    static_clock 5 "v3d" CLK_IS_ROOT,
    static_clock 6 "h264" CLK_IS_ROOT,
    static_clock 7 "isp" CLK_IS_ROOT,
    static_clock 8 "sdram" (CLK_IS_ROOT ||| CLK_IGNORE_UNUSED),
    static_clock 9 "pixel" (CLK_IS_ROOT ||| CLK_IGNORE_UNUSED),
    static_clock 10 "pwm" CLK_IS_ROOT ]

/-- Kernel `ARRAY_SIZE`. -/
def ARRAY_SIZE (table : List rpi_firmware_clock) : Nat := table.length

/-- The registration state `rpi_clocks[idx].hw.clk` of a table entry (`NULL` off the table). -/
def hw_clk (table : List rpi_firmware_clock) (idx : Nat) : clk_ptr :=
  match table[idx]? with
  | some rpi_clk => rpi_clk.hw.clk
  | none => clk_ptr.NULL

/-! ## drivers/clk/clk-raspberrypi.c : the deferred provider -/

/-- The C `struct of_phandle_args`: `args_count` and the argument words. -/
structure of_phandle_args where
  args_count : Int
  args : List Nat
deriving DecidableEq, Repr

/-- The kernel services `rpi_firmware_delayed_get_clk` calls, as they answer at the
time of one call.  `clk_register` receives `&rpi_clk->hw` and may write to it, so it
returns the resulting `clk_hw` next to its return value. -/
structure Env where
  of_find_device_by_node : device_node → platform_device
  of_parse_phandle : device_node → String → Nat → Option device_node
  platform_get_drvdata : platform_device → Option Nat
  clk_register : device → clk_hw → clk_ptr × clk_hw

/-- The C function `rpi_firmware_delayed_get_clk`, run without interference from another
thread: the returned pointer, the table `rpi_clocks` afterwards, and the calls made. -/
def rpi_firmware_delayed_get_clk (env : Env) (table : List rpi_firmware_clock)
    (clkspec : of_phandle_args) (_data : device_node) :
    clk_ptr × List rpi_firmware_clock × List Event :=
  let of_node := _data
  let pdev := env.of_find_device_by_node of_node
  let dev : device := pdev
  if clkspec.args_count ≠ 1 then
    (clk_ptr.ERR_PTR (-ENODEV), table, [])
  else if h : clkspec.args.getD 0 0 ≥ ARRAY_SIZE table then
    (clk_ptr.ERR_PTR (-ENODEV), table, [])
  else
    let idx := clkspec.args.getD 0 0
    let rpi_clk := table.get ⟨idx, Nat.lt_of_not_le h⟩
    if rpi_clk.hw.clk ≠ clk_ptr.NULL then
      (rpi_clk.hw.clk, table, [])
    else
      match env.of_parse_phandle of_node "firmware" 0 with
      | none => (clk_ptr.ERR_PTR (-ENODEV), table, [])
      | some firmware_node =>
        let firmware_pdev := env.of_find_device_by_node firmware_node
        if env.platform_get_drvdata firmware_pdev = none then
          (clk_ptr.ERR_PTR (-EPROBE_DEFER), table, [])
        else
          -- mutex_lock(&delayed_clock_init)
          if rpi_clk.hw.clk ≠ clk_ptr.NULL then
            (rpi_clk.hw.clk, table, [])
          else
            let init : clk_init_data :=
              { name := rpi_clk.name, ops := some clk_ops_ref.rpi_clk_ops,
                num_parents := 0, flags := rpi_clk.flags }
            let bound : rpi_firmware_clock :=
              { rpi_clk with
                firmware_node := some firmware_node, dev := some dev,
                hw := { rpi_clk.hw with init := some init } }
            let r := env.clk_register dev bound.hw
            -- mutex_unlock(&delayed_clock_init)
            (r.1, table.set idx { bound with hw := r.2 }, [Event.clk_register dev bound.hw])

/-- The `clk_hw` that `clk_register` receives for the descriptor `rpi_clk`: `hw.init`
points to the initialisation data of lines 228-235. -/
def hw_at_register (rpi_clk : rpi_firmware_clock) : clk_hw :=
  { rpi_clk.hw with
    init := some { name := rpi_clk.name, ops := some clk_ops_ref.rpi_clk_ops,
                   num_parents := 0, flags := rpi_clk.flags } }

/-- Modelled from the spec: the clock-registration collaborator `clk_register`
(drivers/clk/clk.c, not part of the sources at hand).  Spec section 4.2 step 6: a
successful registration moves the object to Registered, that is `hw->clk` becomes the
handle it returns, and a failed registration leaves the registration state unchanged.
Whether it succeeds, and with which handle or errno, is the parameter `outcome`. -/
def clk_register (outcome : device → clk_hw → Except Int Nat) (dev : device) (hw : clk_hw) :
    clk_ptr × clk_hw :=
  match outcome dev hw with
  | Except.ok addr => (clk_ptr.ptr addr, { hw with clk := clk_ptr.ptr addr })
  | Except.error e => (clk_ptr.ERR_PTR e, hw)

/-- One call of `rpi_firmware_delayed_get_clk`: the services it sees and its arguments. -/
structure Call where
  env : Env
  clkspec : of_phandle_args
  _data : device_node

/-- Calls of `rpi_firmware_delayed_get_clk` one after the other: the table afterwards and,
per call in order, the returned pointer with the calls it made. -/
def resolve_seq (table : List rpi_firmware_clock) :
    List Call → List rpi_firmware_clock × List (clk_ptr × List Event)
  | [] => (table, [])
  | c :: rest =>
    let r := rpi_firmware_delayed_get_clk c.env table c.clkspec c._data
    let q := resolve_seq r.2.1 rest
    (q.1, (r.1, r.2.2) :: q.2)

/-! ## The deferred provider under concurrent callers

`rpi_firmware_delayed_get_clk` as a transition system: every thread runs the function
on its own arguments, the table `rpi_clocks`, the mutex `delayed_clock_init` and the
record of calls are shared.  One step of a thread holds at most one access to the shared
`hw.clk` or one mutex operation; the writes of lines 228-235 go to fields no other
thread of the provider reads, and `clk_register` is one step. -/

/-- The place of a thread inside `rpi_firmware_delayed_get_clk`. -/
inductive Pc where
  /-- Before line 196. -/
  | entry : Pc
  /-- Line 208 read a set `hw.clk`; before the read of line 209. -/
  | fast_return : Pc
  /-- Before `mutex_lock`, line 223. -/
  | wait_lock (firmware_node : device_node) : Pc
  /-- Mutex held, before the read of line 224. -/
  | locked (firmware_node : device_node) : Pc
  /-- Mutex held, line 224 read a set `hw.clk`; before `mutex_unlock`, line 225. -/
  | unlock_return : Pc
  /-- After line 225, before the read of line 226. -/
  | slow_return : Pc
  /-- Mutex held, before lines 228-235. -/
  | binding (firmware_node : device_node) : Pc
  /-- Mutex held, before `clk_register`, line 237. -/
  | registering : Pc
  /-- Mutex held, before `mutex_unlock`, line 238. -/
  | unlocking (ret : clk_ptr) : Pc
  /-- Returned `ret`. -/
  | done (ret : clk_ptr) : Pc
deriving DecidableEq, Repr

/-- The shared state and the place of every thread. -/
structure Sys where
  table : List rpi_firmware_clock
  mutex : Option Nat
  events : List Event
  pcs : List Pc

/-- The next step of thread `k`, which runs call `c` and stands at `pc`: the state
afterwards, or `none` when the thread has returned or waits for the mutex. -/
def thread_step (c : Call) (k : Nat) (pc : Pc) (s : Sys) : Option Sys :=
  let of_node := c._data
  let dev : device := c.env.of_find_device_by_node of_node
  let idx := c.clkspec.args.getD 0 0
  match pc with
  | Pc.entry =>
    if c.clkspec.args_count ≠ 1 then
      some { s with pcs := s.pcs.set k (Pc.done (clk_ptr.ERR_PTR (-ENODEV))) }
    else if h : idx ≥ ARRAY_SIZE s.table then
      some { s with pcs := s.pcs.set k (Pc.done (clk_ptr.ERR_PTR (-ENODEV))) }
    else if (s.table.get ⟨idx, Nat.lt_of_not_le h⟩).hw.clk ≠ clk_ptr.NULL then
      some { s with pcs := s.pcs.set k Pc.fast_return }
    else
      match c.env.of_parse_phandle of_node "firmware" 0 with
      | none => some { s with pcs := s.pcs.set k (Pc.done (clk_ptr.ERR_PTR (-ENODEV))) }
      | some firmware_node =>
        if c.env.platform_get_drvdata (c.env.of_find_device_by_node firmware_node) = none then
          some { s with pcs := s.pcs.set k (Pc.done (clk_ptr.ERR_PTR (-EPROBE_DEFER))) }
        else
          some { s with pcs := s.pcs.set k (Pc.wait_lock firmware_node) }
  | Pc.fast_return =>
    match s.table[idx]? with
    | none => none
    | some rpi_clk => some { s with pcs := s.pcs.set k (Pc.done rpi_clk.hw.clk) }
  | Pc.wait_lock firmware_node =>
    match s.mutex with
    | some _ => none
    | none => some { s with mutex := some k, pcs := s.pcs.set k (Pc.locked firmware_node) }
  | Pc.locked firmware_node =>
    match s.table[idx]? with
    | none => none
    | some rpi_clk =>
      if rpi_clk.hw.clk ≠ clk_ptr.NULL then
        some { s with pcs := s.pcs.set k Pc.unlock_return }
      else
        some { s with pcs := s.pcs.set k (Pc.binding firmware_node) }
  | Pc.unlock_return =>
    some { s with mutex := none, pcs := s.pcs.set k Pc.slow_return }
  | Pc.slow_return =>
    match s.table[idx]? with
    | none => none
    | some rpi_clk => some { s with pcs := s.pcs.set k (Pc.done rpi_clk.hw.clk) }
  | Pc.binding firmware_node =>
    match s.table[idx]? with
    | none => none
    | some rpi_clk =>
      let init : clk_init_data :=
        { name := rpi_clk.name, ops := some clk_ops_ref.rpi_clk_ops,
          num_parents := 0, flags := rpi_clk.flags }
      let bound : rpi_firmware_clock :=
        { rpi_clk with
          firmware_node := some firmware_node, dev := some dev,
          hw := { rpi_clk.hw with init := some init } }
      some { s with table := s.table.set idx bound, pcs := s.pcs.set k Pc.registering }
  | Pc.registering =>
    match s.table[idx]? with
    | none => none
    | some rpi_clk =>
      let r := c.env.clk_register dev rpi_clk.hw
      some { s with
        table := s.table.set idx { rpi_clk with hw := r.2 },
        events := s.events ++ [Event.clk_register dev rpi_clk.hw],
        pcs := s.pcs.set k (Pc.unlocking r.1) }
  | Pc.unlocking ret =>
    some { s with mutex := none, pcs := s.pcs.set k (Pc.done ret) }
  | Pc.done _ => none

/-- The scheduler lets thread `k` take its next step; nothing happens when there is no
such thread or it cannot move. -/
def sys_step (calls : List Call) (s : Sys) (k : Nat) : Sys :=
  match calls[k]?, s.pcs[k]? with
  | some c, some pc => (thread_step c k pc s).getD s
  | _, _ => s

/-- The state after the threads moved in the order of the schedule. -/
def sys_run (calls : List Call) (s : Sys) : List Nat → Sys
  | [] => s
  | k :: rest => sys_run calls (sys_step calls s k) rest

/-- All threads at the entry of the function, the mutex free, nothing recorded. -/
def sys_init (table : List rpi_firmware_clock) (n : Nat) : Sys :=
  { table := table, mutex := none, events := [], pcs := List.replicate n Pc.entry }

/-- Whether a thread has returned. -/
def Pc.is_done : Pc → Bool
  | Pc.done _ => true
  | _ => false

/-- Whether an event is a call of `clk_register`. -/
def Event.is_clk_register : Event → Bool
  | Event.clk_register _ _ => true
  | _ => false

/-! ## Invariant of the concurrent provider -/

/-- A call for the index `idx` whose consumer has a firmware phandle, whose firmware device
is probed, and for which `clk_register`, as modelled from the spec, succeeds. -/
def CallSucceeds (idx : Nat) (c : Call) : Prop :=
  c.clkspec.args_count = 1 ∧ c.clkspec.args.getD 0 0 = idx ∧
  (∃ firmware_node, c.env.of_parse_phandle c._data "firmware" 0 = some firmware_node ∧
    c.env.platform_get_drvdata (c.env.of_find_device_by_node firmware_node) ≠ none) ∧
  (∃ outcome : device → clk_hw → Except Int Nat, c.env.clk_register = clk_register outcome ∧
    ∀ dev hw, ∃ addr, outcome dev hw = Except.ok addr)

/-- Whether a thread at this place holds the mutex `delayed_clock_init`. -/
def Pc.holds_mutex : Pc → Bool
  | Pc.locked _ => true
  | Pc.unlock_return => true
  | Pc.binding _ => true
  | Pc.registering => true
  | Pc.unlocking _ => true
  | _ => false

/-- A bound on the number of steps a thread at this place still takes. -/
def Pc.steps_left : Pc → Nat
  | Pc.entry => 6
  | Pc.wait_lock _ => 5
  | Pc.locked _ => 4
  | Pc.binding _ => 3
  | Pc.registering => 2
  | Pc.unlock_return => 2
  | Pc.unlocking _ => 1
  | Pc.slow_return => 1
  | Pc.fast_return => 1
  | Pc.done _ => 0

/-- The steps all threads together still take at most. -/
def steps_left (pcs : List Pc) : Nat := (pcs.map Pc.steps_left).sum

/-- What thread `k` at place `pc` knows about the mutex and about `hw.clk` of its
descriptor. -/
def pc_ok (mutex : Option Nat) (clk : clk_ptr) (k : Nat) : Pc → Prop
  | Pc.entry => mutex ≠ some k
  | Pc.fast_return => mutex ≠ some k ∧ clk ≠ clk_ptr.NULL
  | Pc.wait_lock _ => mutex ≠ some k
  | Pc.locked _ => mutex = some k
  | Pc.unlock_return => mutex = some k ∧ clk ≠ clk_ptr.NULL
  | Pc.slow_return => mutex ≠ some k ∧ clk ≠ clk_ptr.NULL
  | Pc.binding _ => mutex = some k ∧ clk = clk_ptr.NULL
  | Pc.registering => mutex = some k ∧ clk = clk_ptr.NULL
  | Pc.unlocking ret => mutex = some k ∧ ret = clk ∧ clk ≠ clk_ptr.NULL
  | Pc.done ret => mutex ≠ some k ∧ ret = clk ∧ clk ≠ clk_ptr.NULL

/-- The invariant of the threads that resolve the index `idx`: the descriptor is either
unregistered with no call of `clk_register` made, or registered with a valid handle by
exactly one call; every thread is at a place consistent with the mutex and `hw.clk`; and
the owner of the mutex is a thread inside the critical section. -/
def sys_inv (calls : List Call) (idx : Nat) (s : Sys) : Prop :=
  s.pcs.length = calls.length ∧
  idx < ARRAY_SIZE s.table ∧
  ((hw_clk s.table idx = clk_ptr.NULL ∧ s.events = []) ∨
    (∃ addr dev hw, hw_clk s.table idx = clk_ptr.ptr addr ∧
      s.events = [Event.clk_register dev hw])) ∧
  (∀ k pc, s.pcs[k]? = some pc → pc_ok s.mutex (hw_clk s.table idx) k pc) ∧
  (∀ k, s.mutex = some k → ∃ pc, s.pcs[k]? = some pc ∧ pc.holds_mutex = true)

/-! ## drivers/clk/clk-raspberrypi.c : the clock operations -/

/-- The firmware property transport: from the firmware's state, the firmware node, the
tag and the request packet to the return code, the packet as the firmware left it, and
the firmware's next state. -/
abbrev Transport (σ : Type) :=
  σ → Option device_node → rpi_firmware_property_tag → Nat × Nat → Int × (Nat × Nat) × σ

/-- The firmware's state together with the record of calls made so far. -/
structure World (σ : Type) where
  firmware : σ
  events : List Event

/-- A call `rpi_firmware_property(node, tag, &packet, sizeof(packet))` on a `u32 packet[2]`:
the transport is the parameter `t`; the call is recorded and the words read back from the
buffer are `u32`. -/
def rpi_firmware_property {σ : Type} (t : Transport σ) (w : World σ)
    (node : Option device_node) (tag : rpi_firmware_property_tag) (packet : Nat × Nat) :
    Int × (Nat × Nat) × World σ :=
  let r := t w.firmware node tag packet
  (r.1, (u32_of_nat r.2.1.1, u32_of_nat r.2.1.2),
    { firmware := r.2.2, events := w.events ++ [Event.rpi_firmware_property node tag packet] })

/-- The C function `rpi_clk_is_on`. -/
def rpi_clk_is_on {σ : Type} (t : Transport σ) (w : World σ) (rpi_clk : rpi_firmware_clock) :
    Int × World σ :=
  let packet : Nat × Nat := (u32_of_int rpi_clk.clock_id, 0)
  let r := rpi_firmware_property t w rpi_clk.firmware_node
    rpi_firmware_property_tag.RPI_FIRMWARE_GET_CLOCK_STATE packet
  let ret := r.1
  let packet := r.2.1
  if ret ≠ 0 then
    (0, r.2.2)
  else
    (if packet.2 ≠ 0 then 1 else 0, r.2.2)

/-- The C function `rpi_clk_set_enable`. -/
def rpi_clk_set_enable {σ : Type} (t : Transport σ) (w : World σ)
    (rpi_clk : rpi_firmware_clock) (enable : Bool) : Int × World σ :=
  let packet : Nat × Nat := (u32_of_int rpi_clk.clock_id, if enable then 1 else 0)
  let r := rpi_firmware_property t w rpi_clk.firmware_node
    rpi_firmware_property_tag.RPI_FIRMWARE_SET_CLOCK_STATE packet
  let ret := r.1
  let packet := r.2.1
  if ret ≠ 0 ∨ (packet.2 &&& (1 <<< 1)) ≠ 0 then
    (-EINVAL, r.2.2)
  else
    let q := rpi_clk_is_on t r.2.2 rpi_clk
    (0, q.2)

/-- The C function `rpi_clk_on`. -/
def rpi_clk_on {σ : Type} (t : Transport σ) (w : World σ) (rpi_clk : rpi_firmware_clock) :
    Int × World σ :=
  rpi_clk_set_enable t w rpi_clk true

/-- The C function `rpi_clk_off`, of return type `void`. -/
def rpi_clk_off {σ : Type} (t : Transport σ) (w : World σ) (rpi_clk : rpi_firmware_clock) :
    Unit × World σ :=
  ((), (rpi_clk_set_enable t w rpi_clk false).2)

/-- The C function `rpi_clk_get_rate`. -/
def rpi_clk_get_rate {σ : Type} (t : Transport σ) (w : World σ)
    (rpi_clk : rpi_firmware_clock) (_parent_rate : Nat) : Nat × World σ :=
  let packet : Nat × Nat := (u32_of_int rpi_clk.clock_id, 0)
  let r := rpi_firmware_property t w rpi_clk.firmware_node
    rpi_firmware_property_tag.RPI_FIRMWARE_GET_CLOCK_RATE packet
  let ret := r.1
  let packet := r.2.1
  if ret ≠ 0 then
    (0, r.2.2)
  else
    (packet.2, r.2.2)

/-- The C function `rpi_clk_set_rate`. -/
def rpi_clk_set_rate {σ : Type} (t : Transport σ) (w : World σ)
    (rpi_clk : rpi_firmware_clock) (rate : Nat) (_parent_rate : Nat) : Int × World σ :=
  let packet : Nat × Nat := (u32_of_int rpi_clk.clock_id, u32_of_nat rate)
  let r := rpi_firmware_property t w rpi_clk.firmware_node
    rpi_firmware_property_tag.RPI_FIRMWARE_SET_CLOCK_RATE packet
  let ret := r.1
  if ret ≠ 0 then
    (ret, r.2.2)
  else
    (0, r.2.2)

/-- Conversion of an `unsigned long` value to `long` (two's complement, as gcc does). -/
def long_of_ulong (n : Nat) : Int :=
  if n % 2 ^ BITS_PER_LONG < 2 ^ (BITS_PER_LONG - 1) then
    Int.ofNat (n % 2 ^ BITS_PER_LONG)
  else
    Int.ofNat (n % 2 ^ BITS_PER_LONG) - 2 ^ BITS_PER_LONG

/-- The C function `rpi_clk_round_rate`: `return rate;` with the return type `long`.  It
reads neither `hw` nor `*parent_rate` and calls nothing. -/
def rpi_clk_round_rate {σ : Type} (_t : Transport σ) (w : World σ)
    (_rpi_clk : rpi_firmware_clock) (rate : Nat) (_parent_rate : Nat) : Int × World σ :=
  (long_of_ulong rate, w)

/-- A call through one of the members of the operation table `rpi_clk_ops`. -/
inductive clk_op where
  | is_prepared : clk_op
  | prepare : clk_op
  | unprepare : clk_op
  | recalc_rate (parent_rate : Nat) : clk_op
  | set_rate (rate : Nat) (parent_rate : Nat) : clk_op
  | round_rate (rate : Nat) (parent_rate : Nat) : clk_op
deriving DecidableEq, Repr

/-- The operation table `rpi_clk_ops`, called on the clock object behind `hw`: the value
returned (0 for the `void` member), the world afterwards, and the clock object
afterwards.  None of the six functions assigns to a field of the object, so the object
afterwards is the object before. -/
def rpi_clk_ops {σ : Type} (t : Transport σ) (op : clk_op) (w : World σ)
    (rpi_clk : rpi_firmware_clock) : Int × World σ × rpi_firmware_clock :=
  match op with
  | clk_op.is_prepared =>
    let r := rpi_clk_is_on t w rpi_clk
    (r.1, r.2, rpi_clk)
  | clk_op.prepare =>
    let r := rpi_clk_on t w rpi_clk
    (r.1, r.2, rpi_clk)
  | clk_op.unprepare =>
    let r := rpi_clk_off t w rpi_clk
    (0, r.2, rpi_clk)
  | clk_op.recalc_rate parent_rate =>
    let r := rpi_clk_get_rate t w rpi_clk parent_rate
    (Int.ofNat r.1, r.2, rpi_clk)
  | clk_op.set_rate rate parent_rate =>
    let r := rpi_clk_set_rate t w rpi_clk rate parent_rate
    (r.1, r.2, rpi_clk)
  | clk_op.round_rate rate parent_rate =>
    let r := rpi_clk_round_rate t w rpi_clk rate parent_rate
    (r.1, r.2, rpi_clk)

/-- Calls through `rpi_clk_ops` one after the other: the values returned in order, the
world and the clock object at the end. -/
def rpi_clk_ops_seq {σ : Type} (t : Transport σ) :
    List clk_op → World σ → rpi_firmware_clock → List Int × World σ × rpi_firmware_clock
  | [], w, rpi_clk => ([], w, rpi_clk)
  | op :: rest, w, rpi_clk =>
    let r := rpi_clk_ops t op w rpi_clk
    let q := rpi_clk_ops_seq t rest r.2.1 r.2.2
    (r.1 :: q.1, q.2.1, q.2.2)

/-! ## drivers/cpufreq/raspberry-cpufreq.c -/

/-- The terminator `CPUFREQ_TABLE_END`, `~1u` in the kernel header include/linux/cpufreq.h. -/
def CPUFREQ_TABLE_END : Nat := 4294967294

/-- The constant `RASPBERRY_CLOCK_ARM` of `raspberrypi_clk_get_range`. -/
def RASPBERRY_CLOCK_ARM : Nat := 3

/-- The tag the cpufreq driver writes `RASPBERRYPI_FIRMWARE_GET_MIN_CLOCK_RATE`. -/
abbrev RASPBERRYPI_FIRMWARE_GET_MIN_CLOCK_RATE : rpi_firmware_property_tag :=
  rpi_firmware_property_tag.RPI_FIRMWARE_GET_MIN_CLOCK_RATE

/-- The tag the cpufreq driver writes `RASPBERRYPI_FIRMWARE_GET_MAX_CLOCK_RATE`. -/
abbrev RASPBERRYPI_FIRMWARE_GET_MAX_CLOCK_RATE : rpi_firmware_property_tag :=
  rpi_firmware_property_tag.RPI_FIRMWARE_GET_MAX_CLOCK_RATE

/-- The property call under the name the cpufreq driver uses for it. -/
def raspberrypi_firmware_property {σ : Type} (t : Transport σ) (w : World σ)
    (of_node : device_node) (tag : rpi_firmware_property_tag) (packet : Nat × Nat) :
    Int × (Nat × Nat) × World σ :=
  rpi_firmware_property t w (some of_node) tag packet

/-- The file-scope variables of the cpufreq driver: the `.frequency` members of the three
entries of `raspberrypi_freq_table`, and `arm_clk`. -/
structure cpufreq_globals where
  raspberrypi_freq_table : List Nat
  arm_clk : clk_ptr
deriving DecidableEq, Repr

/-- The variables as the C initialisers leave them: entries 0 and 1 zero, entry 2 the
terminator, `arm_clk` `NULL`. -/
def cpufreq_globals_init : cpufreq_globals :=
  { raspberrypi_freq_table := [0, 0, CPUFREQ_TABLE_END], arm_clk := clk_ptr.NULL }

/-- The member `cur` of `struct cpufreq_policy`, the only one the driver writes. -/
structure cpufreq_policy where
  cur : Nat
deriving DecidableEq, Repr

/-- A call the cpufreq driver makes into the clock or the cpufreq framework. -/
inductive cpufreq_call where
  | clk_get_sys (dev_id : String) : cpufreq_call
  | clk_get_rate (clk : clk_ptr) : cpufreq_call
  | clk_set_rate (clk : clk_ptr) (rate : Nat) : cpufreq_call
  | cpufreq_register_driver (freq_table : List Nat) : cpufreq_call
deriving DecidableEq, Repr

/-- Whether a call is a call of `cpufreq_register_driver`. -/
def cpufreq_call.is_register : cpufreq_call → Bool
  | cpufreq_call.cpufreq_register_driver _ => true
  | _ => false

/-- The framework services the cpufreq driver calls, as they answer at the time of one
call. -/
structure CpufreqEnv where
  clk_get_sys : String → clk_ptr
  clk_get_rate : clk_ptr → Nat
  clk_set_rate : clk_ptr → Nat → Int
  of_parse_phandle : device_node → String → Nat → Option device_node
  cpufreq_register_driver : List Nat → Int

/-- The C function `raspberrypi_cpufreq_get_clock`.  The sum of the two `unsigned int`
entries is taken modulo `2 ^ 32`. -/
def raspberrypi_cpufreq_get_clock (env : CpufreqEnv) (g : cpufreq_globals) (_cpu : Nat) : Nat :=
  let mean := (g.raspberrypi_freq_table.getD 0 0 + g.raspberrypi_freq_table.getD 1 0)
    % 2 ^ 32 / 2
  let val := env.clk_get_rate g.arm_clk / 1000
  if val < mean then g.raspberrypi_freq_table.getD 0 0 else g.raspberrypi_freq_table.getD 1 0

/-- The C function `raspberrypi_cpufreq_set_clock`: the value returned, the policy
afterwards and the calls made.  The product of the `unsigned int` operands is taken
modulo `2 ^ 32`.  The framework passes the index 0 or 1; an index beyond the array,
which C leaves undefined, reads 0 here. -/
def raspberrypi_cpufreq_set_clock (env : CpufreqEnv) (g : cpufreq_globals)
    (policy : cpufreq_policy) (index : Nat) : Int × cpufreq_policy × List cpufreq_call :=
  let target_freq := g.raspberrypi_freq_table.getD index 0
  let ret := env.clk_set_rate g.arm_clk (target_freq * 1000 % 2 ^ 32)
  if ret ≠ 0 then
    (ret, policy, [cpufreq_call.clk_set_rate g.arm_clk (target_freq * 1000 % 2 ^ 32)])
  else
    (0, { policy with cur := target_freq },
      [cpufreq_call.clk_set_rate g.arm_clk (target_freq * 1000 % 2 ^ 32)])

/-- The C function `raspberrypi_clk_get_range`; `min` and `max` are the variables behind
the two pointers, before and after the call. -/
def raspberrypi_clk_get_range {σ : Type} (t : Transport σ) (w : World σ)
    (of_node : device_node) (min max : Nat) : Int × Nat × Nat × World σ :=
  let packet : Nat × Nat := (RASPBERRY_CLOCK_ARM, 0)
  let r := raspberrypi_firmware_property t w of_node
    RASPBERRYPI_FIRMWARE_GET_MIN_CLOCK_RATE packet
  if r.1 ≠ 0 then
    (r.1, min, max, r.2.2)
  else
    let min := r.2.1.2
    let packet : Nat × Nat := (RASPBERRY_CLOCK_ARM, 0)
    let q := raspberrypi_firmware_property t r.2.2 of_node
      RASPBERRYPI_FIRMWARE_GET_MAX_CLOCK_RATE packet
    if q.1 ≠ 0 then
      (q.1, min, max, q.2.2)
    else
      let max := q.2.1.2
      (0, min, max, q.2.2)

/-- The C function `raspberrypi_cpufreq_probe` for the platform device with device-tree
node `of_node`: the value returned, the file-scope variables and the world afterwards,
and the framework calls made.  The locals `min` and `max` are not initialised in C and
not read before `raspberrypi_clk_get_range` wrote them; they start as 0 here. -/
def raspberrypi_cpufreq_probe {σ : Type} (env : CpufreqEnv) (t : Transport σ)
    (g : cpufreq_globals) (w : World σ) (of_node : device_node) :
    Int × cpufreq_globals × World σ × List cpufreq_call :=
  let g1 : cpufreq_globals := { g with arm_clk := env.clk_get_sys "arm" }
  if IS_ERR g1.arm_clk then
    (-EPROBE_DEFER, g1, w, [cpufreq_call.clk_get_sys "arm"])
  else
    match env.of_parse_phandle of_node "firmware" 0 with
    | none => (-EPROBE_DEFER, g1, w, [cpufreq_call.clk_get_sys "arm"])
    | some firmware_node =>
      let r := raspberrypi_clk_get_range t w firmware_node 0 0
      let ret := r.1
      let min := r.2.1
      let max := r.2.2.1
      if ret ≠ 0 then
        (ret, g1, r.2.2.2, [cpufreq_call.clk_get_sys "arm"])
      else
        let g2 : cpufreq_globals :=
          { g1 with
            raspberrypi_freq_table :=
              (g1.raspberrypi_freq_table.set 0 (u32_of_nat (min / 1000))).set 1
                (u32_of_nat (max / 1000)) }
        (env.cpufreq_register_driver g2.raspberrypi_freq_table, g2, r.2.2.2,
          [cpufreq_call.clk_get_sys "arm",
           cpufreq_call.cpufreq_register_driver g2.raspberrypi_freq_table])

/-- The frequency table as a successful probe leaves it for the firmware bounds `min` and
`max` (two `u32` words, in Hz): both entries in kHz and the terminator. -/
def freq_table_populated (g : cpufreq_globals) (min max : Nat) : Prop :=
  min < 2 ^ 32 ∧ max < 2 ^ 32 ∧
  g.raspberrypi_freq_table = [min / 1000, max / 1000, CPUFREQ_TABLE_END]

/-- One call of `raspberrypi_cpufreq_probe`: the services and the firmware transport it
sees, and the node of the platform device. -/
structure ProbeCall (σ : Type) where
  env : CpufreqEnv
  transport : Transport σ
  of_node : device_node

/-- Calls of `raspberrypi_cpufreq_probe` one after the other: the file-scope variables and
the world at the end. -/
def probe_seq {σ : Type} (g : cpufreq_globals) (w : World σ) :
    List (ProbeCall σ) → cpufreq_globals × World σ
  | [] => (g, w)
  | c :: rest =>
    let r := raspberrypi_cpufreq_probe c.env c.transport g w c.of_node
    probe_seq r.2.1 r.2.2.1 rest

/-- The designated initialisers of `rpi_clocks[]` as the source lists them: the index
macro and the entry. -/
def rpi_clocks_designated : List (Nat × rpi_firmware_clock) :=
  [ (RPI_CLOCK_EMMC, static_clock 1 "emmc" (CLK_IS_ROOT ||| CLK_IGNORE_UNUSED)),
    (RPI_CLOCK_UART0, static_clock 2 "uart0" (CLK_IS_ROOT ||| CLK_IGNORE_UNUSED)),
    (RPI_CLOCK_ARM, static_clock 3 "arm" (CLK_IS_ROOT ||| CLK_IGNORE_UNUSED)),
    (RPI_CLOCK_CORE, static_clock 4 "core" (CLK_IS_ROOT ||| CLK_IGNORE_UNUSED)),
    (RPI_CLOCK_V3D, static_clock 5 "v3d" CLK_IS_ROOT),
    (RPI_CLOCK_H264, static_clock 6 "h264" CLK_IS_ROOT),
    (RPI_CLOCK_ISP, static_clock 7 "isp" CLK_IS_ROOT),
    (RPI_CLOCK_SDRAM, static_clock 8 "sdram" (CLK_IS_ROOT ||| CLK_IGNORE_UNUSED)),
    (RPI_CLOCK_PIXEL, static_clock 9 "pixel" (CLK_IS_ROOT ||| CLK_IGNORE_UNUSED)),
    (RPI_CLOCK_PWM, static_clock 10 "pwm" CLK_IS_ROOT) ]

/-! ## Sample environments -/

/-- A system whose firmware device is probed and whose `clk_register` succeeds with the
handle at address 4096. -/
def env_ready : Env :=
  { of_find_device_by_node := fun n => n + 100,
    of_parse_phandle := fun _ _ _ => some 7,
    platform_get_drvdata := fun _ => some 1,
    clk_register := clk_register (fun _ _ => Except.ok 4096) }

/-- As `env_ready`, but `clk_register` fails with `-ENOMEM`. -/
def env_register_fails : Env :=
  { env_ready with clk_register := clk_register (fun _ _ => Except.error (-12)) }

/-- As `env_ready`, but the consumer's node has no `firmware` phandle. -/
def env_no_firmware : Env :=
  { env_ready with of_parse_phandle := fun _ _ _ => none }

/-- As `env_ready`, but the firmware device has no driver data yet. -/
def env_not_probed : Env :=
  { env_ready with platform_get_drvdata := fun _ => none }

/-- The clock specifier `<&clocks index>`. -/
def spec_of (index : Nat) : of_phandle_args := { args_count := 1, args := [index] }

/-- A firmware that accepts state and rate requests, reports every clock as on and
running at 700 MHz, and counts the requests it served. -/
def sample_transport : Transport Nat := fun s _ tag packet =>
  match tag with
  | rpi_firmware_property_tag.RPI_FIRMWARE_SET_CLOCK_STATE => (0, (packet.1, packet.2), s + 1)
  | rpi_firmware_property_tag.RPI_FIRMWARE_GET_CLOCK_STATE => (0, (packet.1, 1), s + 1)
  | rpi_firmware_property_tag.RPI_FIRMWARE_GET_CLOCK_RATE => (0, (packet.1, 700000000), s + 1)
  | rpi_firmware_property_tag.RPI_FIRMWARE_SET_CLOCK_RATE => (0, (packet.1, 600000000), s + 1)
  | _ => (-22, packet, s + 1)

/-- A firmware whose transport always fails with `-EIO`. -/
def failing_transport : Transport Nat := fun s _ _ packet => (-5, packet, s + 1)

/-- The `arm` descriptor of the static table, bound to the firmware node 7. -/
def sample_arm_clock : rpi_firmware_clock :=
  { static_clock 3 "arm" (CLK_IS_ROOT ||| CLK_IGNORE_UNUSED) with
    firmware_node := some 7, dev := some 105 }

/-- The world before any request. -/
def world0 : World Nat := { firmware := 0, events := [] }

/-- The table after the `arm` clock (index 2) has been registered from the static table. -/
def table_arm_registered : List rpi_firmware_clock :=
  (rpi_firmware_delayed_get_clk env_ready rpi_clocks (spec_of 2) 5).2.1

/-- A firmware that reports the range 600 MHz to 1200 MHz for every clock. -/
def range_transport : Transport Nat := fun s _ tag packet =>
  match tag with
  | rpi_firmware_property_tag.RPI_FIRMWARE_GET_MIN_CLOCK_RATE => (0, (packet.1, 600000000), s + 1)
  | rpi_firmware_property_tag.RPI_FIRMWARE_GET_MAX_CLOCK_RATE => (0, (packet.1, 1200000000), s + 1)
  | _ => (-22, packet, s + 1)

/-- A firmware that reports a minimum of 1200 MHz and a maximum of 600 MHz. -/
def swapped_range_transport : Transport Nat := fun s _ tag packet =>
  match tag with
  | rpi_firmware_property_tag.RPI_FIRMWARE_GET_MIN_CLOCK_RATE => (0, (packet.1, 1200000000), s + 1)
  | rpi_firmware_property_tag.RPI_FIRMWARE_GET_MAX_CLOCK_RATE => (0, (packet.1, 600000000), s + 1)
  | _ => (-22, packet, s + 1)

/-- A firmware that answers the minimum query and fails the maximum query with `-EIO`. -/
def max_fails_transport : Transport Nat := fun s _ tag packet =>
  match tag with
  | rpi_firmware_property_tag.RPI_FIRMWARE_GET_MIN_CLOCK_RATE => (0, (packet.1, 600000000), s + 1)
  | _ => (-5, packet, s + 1)

/-- A framework in which the `arm` clock exists, runs at `rate` Hz, accepts every rate,
the device has a firmware phandle, and driver registration succeeds. -/
def cpufreq_env (rate : Nat) : CpufreqEnv :=
  { clk_get_sys := fun _ => clk_ptr.ptr 4096,
    clk_get_rate := fun _ => rate,
    clk_set_rate := fun _ _ => 0,
    of_parse_phandle := fun _ _ _ => some 7,
    cpufreq_register_driver := fun _ => 0 }

/-- As `cpufreq_env`, but `clk_set_rate` fails with `-EINVAL`. -/
def cpufreq_env_set_fails (rate : Nat) : CpufreqEnv :=
  { cpufreq_env rate with clk_set_rate := fun _ _ => -22 }

/-- The file-scope variables after a probe that found 600 MHz and 1200 MHz. -/
def globals_600_1200 : cpufreq_globals :=
  { raspberrypi_freq_table := [600000, 1200000, CPUFREQ_TABLE_END], arm_clk := clk_ptr.ptr 4096 }

/-! ## Theorems : the deferred provider -/

theorem hw_clk_of_get (table : List rpi_firmware_clock) (idx : Nat) (h : idx < table.length) :
    hw_clk table idx = (table.get ⟨idx, h⟩).hw.clk := by
  simp [hw_clk, List.getElem?_eq_getElem h]

theorem hw_clk_set_ne (table : List rpi_firmware_clock) (idx i : Nat) (c : rpi_firmware_clock)
    (h : idx ≠ i) : hw_clk (table.set idx c) i = hw_clk table i := by
  simp [hw_clk, List.getElem?_set_ne h]

theorem hw_clk_set_eq (table : List rpi_firmware_clock) (idx : Nat) (c : rpi_firmware_clock)
    (h : idx < table.length) : hw_clk (table.set idx c) idx = c.hw.clk := by
  simp [hw_clk, List.getElem?_set_self, h]

/-- C3: for a specifier whose index lies outside the table of ten descriptors, the provider
returns `ERR_PTR(-ENODEV)` whatever the environment answers, calls neither the firmware
transport nor `clk_register`, and leaves the table as it was. -/
theorem C3_out_of_range_index (env : Env) (table : List rpi_firmware_clock)
    (clkspec : of_phandle_args) (_data : device_node)
    (hsize : ARRAY_SIZE table = 10) (hidx : clkspec.args.getD 0 0 ≥ 10) :
    ARRAY_SIZE rpi_clocks = 10 ∧
    rpi_firmware_delayed_get_clk env table clkspec _data
      = (clk_ptr.ERR_PTR (-ENODEV), table, []) := by
  refine ⟨rfl, ?_⟩
  unfold rpi_firmware_delayed_get_clk
  by_cases hc : clkspec.args_count ≠ 1
  · simp [hc]
  · have h2 : clkspec.args.getD 0 0 ≥ ARRAY_SIZE table := by omega
    simp only [hc, h2, if_false, dite_true]

theorem C3_out_of_range_index_witness :
    ARRAY_SIZE rpi_clocks = 10 ∧ (spec_of 10).args.getD 0 0 ≥ 10 ∧
    rpi_firmware_delayed_get_clk env_ready rpi_clocks (spec_of 10) 5
      = (clk_ptr.ERR_PTR (-ENODEV), rpi_clocks, []) :=
  ⟨by decide, by decide,
    (C3_out_of_range_index env_ready rpi_clocks (spec_of 10) 5 (by decide) (by decide)).2⟩

theorem resolve_registered (env : Env) (table : List rpi_firmware_clock)
    (clkspec : of_phandle_args) (_data : device_node)
    (hcount : clkspec.args_count = 1) (hidx : clkspec.args.getD 0 0 < ARRAY_SIZE table)
    (hreg : hw_clk table (clkspec.args.getD 0 0) ≠ clk_ptr.NULL) :
    rpi_firmware_delayed_get_clk env table clkspec _data
      = (hw_clk table (clkspec.args.getD 0 0), table, []) := by
  have hlt : clkspec.args.getD 0 0 < table.length := hidx
  rw [hw_clk_of_get table _ hlt] at hreg ⊢
  unfold rpi_firmware_delayed_get_clk
  have h2 : ¬ (clkspec.args.getD 0 0 ≥ ARRAY_SIZE table) := by omega
  simp only [hcount, h2, ne_eq, not_true_eq_false, if_false, dite_false]
  simp only [hreg, not_false_eq_true, if_true]

theorem resolve_missing_firmware (env : Env) (table : List rpi_firmware_clock)
    (clkspec : of_phandle_args) (_data : device_node)
    (hcount : clkspec.args_count = 1) (hidx : clkspec.args.getD 0 0 < ARRAY_SIZE table)
    (hunreg : hw_clk table (clkspec.args.getD 0 0) = clk_ptr.NULL)
    (hfw : env.of_parse_phandle _data "firmware" 0 = none) :
    rpi_firmware_delayed_get_clk env table clkspec _data
      = (clk_ptr.ERR_PTR (-ENODEV), table, []) := by
  have hlt : clkspec.args.getD 0 0 < table.length := hidx
  rw [hw_clk_of_get table _ hlt] at hunreg
  unfold rpi_firmware_delayed_get_clk
  have h2 : ¬ (clkspec.args.getD 0 0 ≥ ARRAY_SIZE table) := by omega
  simp only [hcount, h2, ne_eq, not_true_eq_false, if_false, dite_false]
  simp only [hunreg, not_true_eq_false, if_false, hfw]

theorem resolve_not_probed (env : Env) (table : List rpi_firmware_clock)
    (clkspec : of_phandle_args) (_data : device_node) (firmware_node : device_node)
    (hcount : clkspec.args_count = 1) (hidx : clkspec.args.getD 0 0 < ARRAY_SIZE table)
    (hunreg : hw_clk table (clkspec.args.getD 0 0) = clk_ptr.NULL)
    (hfw : env.of_parse_phandle _data "firmware" 0 = some firmware_node)
    (hnot : env.platform_get_drvdata (env.of_find_device_by_node firmware_node) = none) :
    rpi_firmware_delayed_get_clk env table clkspec _data
      = (clk_ptr.ERR_PTR (-EPROBE_DEFER), table, []) := by
  have hlt : clkspec.args.getD 0 0 < table.length := hidx
  rw [hw_clk_of_get table _ hlt] at hunreg
  unfold rpi_firmware_delayed_get_clk
  have h2 : ¬ (clkspec.args.getD 0 0 ≥ ARRAY_SIZE table) := by omega
  simp only [hcount, h2, ne_eq, not_true_eq_false, if_false, dite_false]
  simp only [hunreg, not_true_eq_false, if_false, hfw, hnot, if_true]

theorem resolve_registers (env : Env) (table : List rpi_firmware_clock)
    (clkspec : of_phandle_args) (_data : device_node) (firmware_node : device_node)
    (hcount : clkspec.args_count = 1) (hidx : clkspec.args.getD 0 0 < ARRAY_SIZE table)
    (hunreg : hw_clk table (clkspec.args.getD 0 0) = clk_ptr.NULL)
    (hfw : env.of_parse_phandle _data "firmware" 0 = some firmware_node)
    (hready : env.platform_get_drvdata (env.of_find_device_by_node firmware_node) ≠ none) :
    rpi_firmware_delayed_get_clk env table clkspec _data
      = ((env.clk_register (env.of_find_device_by_node _data)
            (hw_at_register (table.get ⟨clkspec.args.getD 0 0, hidx⟩))).1,
         table.set (clkspec.args.getD 0 0)
           { table.get ⟨clkspec.args.getD 0 0, hidx⟩ with
             firmware_node := some firmware_node,
             dev := some (env.of_find_device_by_node _data),
             hw := (env.clk_register (env.of_find_device_by_node _data)
                     (hw_at_register (table.get ⟨clkspec.args.getD 0 0, hidx⟩))).2 },
         [Event.clk_register (env.of_find_device_by_node _data)
            (hw_at_register (table.get ⟨clkspec.args.getD 0 0, hidx⟩))]) := by
  have hlt : clkspec.args.getD 0 0 < table.length := hidx
  rw [hw_clk_of_get table _ hlt] at hunreg
  unfold rpi_firmware_delayed_get_clk
  have h2 : ¬ (clkspec.args.getD 0 0 ≥ ARRAY_SIZE table) := by omega
  simp only [hcount, h2, ne_eq, not_true_eq_false, if_false, dite_false]
  simp only [hunreg, not_true_eq_false, if_false, hfw, hready, hw_at_register]

theorem resolve_bad_count (env : Env) (table : List rpi_firmware_clock)
    (clkspec : of_phandle_args) (_data : device_node) (hcount : clkspec.args_count ≠ 1) :
    rpi_firmware_delayed_get_clk env table clkspec _data
      = (clk_ptr.ERR_PTR (-ENODEV), table, []) := by
  unfold rpi_firmware_delayed_get_clk
  simp only [hcount, ne_eq, not_false_eq_true, if_true]

theorem resolve_out_of_range (env : Env) (table : List rpi_firmware_clock)
    (clkspec : of_phandle_args) (_data : device_node)
    (hidx : clkspec.args.getD 0 0 ≥ ARRAY_SIZE table) :
    rpi_firmware_delayed_get_clk env table clkspec _data
      = (clk_ptr.ERR_PTR (-ENODEV), table, []) := by
  unfold rpi_firmware_delayed_get_clk
  by_cases hc : clkspec.args_count ≠ 1
  · simp only [hc, ne_eq, not_false_eq_true, if_true]
  · simp only [hc, hidx, if_false, dite_true]

theorem resolve_table_cases (env : Env) (table : List rpi_firmware_clock)
    (clkspec : of_phandle_args) (_data : device_node) :
    (rpi_firmware_delayed_get_clk env table clkspec _data).2.1 = table ∨
    (hw_clk table (clkspec.args.getD 0 0) = clk_ptr.NULL ∧
      ∃ c, (rpi_firmware_delayed_get_clk env table clkspec _data).2.1
        = table.set (clkspec.args.getD 0 0) c) := by
  by_cases hc : clkspec.args_count = 1
  · by_cases h2 : clkspec.args.getD 0 0 < ARRAY_SIZE table
    · by_cases h3 : hw_clk table (clkspec.args.getD 0 0) = clk_ptr.NULL
      · cases hfw : env.of_parse_phandle _data "firmware" 0 with
        | none => rw [resolve_missing_firmware env table clkspec _data hc h2 h3 hfw]; simp
        | some fw =>
          by_cases h4 : env.platform_get_drvdata (env.of_find_device_by_node fw) = none
          · rw [resolve_not_probed env table clkspec _data fw hc h2 h3 hfw h4]; simp
          · rw [resolve_registers env table clkspec _data fw hc h2 h3 hfw h4]
            exact Or.inr ⟨h3, _, rfl⟩
      · rw [resolve_registered env table clkspec _data hc h2 h3]; simp
    · rw [resolve_out_of_range env table clkspec _data (by omega)]; simp
  · rw [resolve_bad_count env table clkspec _data hc]; simp

theorem resolve_array_size (env : Env) (table : List rpi_firmware_clock)
    (clkspec : of_phandle_args) (_data : device_node) :
    ARRAY_SIZE (rpi_firmware_delayed_get_clk env table clkspec _data).2.1 = ARRAY_SIZE table := by
  rcases resolve_table_cases env table clkspec _data with h | ⟨_, c, h⟩
  · rw [h]
  · rw [h]; simp [ARRAY_SIZE]

theorem resolve_keeps_registered (env : Env) (table : List rpi_firmware_clock)
    (clkspec : of_phandle_args) (_data : device_node) (i : Nat)
    (hreg : hw_clk table i ≠ clk_ptr.NULL) :
    hw_clk (rpi_firmware_delayed_get_clk env table clkspec _data).2.1 i = hw_clk table i := by
  rcases resolve_table_cases env table clkspec _data with h | ⟨hnull, c, h⟩
  · rw [h]
  · rw [h]
    apply hw_clk_set_ne
    intro heq
    rw [heq] at hnull
    exact hreg hnull

theorem resolve_seq_keeps_registered (calls : List Call) :
    ∀ (table : List rpi_firmware_clock) (i : Nat), hw_clk table i ≠ clk_ptr.NULL →
      hw_clk (resolve_seq table calls).1 i = hw_clk table i := by
  induction calls with
  | nil => intro table i _; rfl
  | cons c rest ih =>
    intro table i hreg
    have h1 := resolve_keeps_registered c.env table c.clkspec c._data i hreg
    simp only [resolve_seq]
    rw [ih _ i (by rw [h1]; exact hreg), h1]

theorem resolve_seq_returns_registered (calls : List Call) :
    ∀ (table : List rpi_firmware_clock) (i : Nat), i < ARRAY_SIZE table →
      hw_clk table i ≠ clk_ptr.NULL →
      ∀ (k : Nat) (c : Call), calls[k]? = some c → c.clkspec.args_count = 1 →
        c.clkspec.args.getD 0 0 = i →
        (resolve_seq table calls).2[k]? = some (hw_clk table i, []) := by
  induction calls with
  | nil => intro table i _ _ k c hk; simp at hk
  | cons c0 rest ih =>
    intro table i hi hreg k c hk hcount hidx
    cases k with
    | zero =>
      simp at hk
      subst hk
      subst hidx
      simp [resolve_seq, resolve_registered c0.env table c0.clkspec c0._data hcount hi hreg]
    | succ k =>
      simp at hk
      have h1 := resolve_keeps_registered c0.env table c0.clkspec c0._data i hreg
      have h2 := resolve_array_size c0.env table c0.clkspec c0._data
      have := ih (rpi_firmware_delayed_get_clk c0.env table c0.clkspec c0._data).2.1 i
        (by rw [h2]; exact hi) (by rw [h1]; exact hreg) k c hk hcount hidx
      simp only [resolve_seq, List.getElem?_cons_succ]
      rw [this, h1]

/-- C1: once `hw.clk` of a descriptor is set, no call of the provider, for any index and
with any outcome, changes it; a call for that index returns that handle, changes nothing
and calls nothing; the same holds along every sequence of calls, so a descriptor that
became registered never becomes unregistered or registered anew. -/
theorem C1_registered_handle_is_stable (table : List rpi_firmware_clock) (i : Nat)
    (hi : i < ARRAY_SIZE table) (hreg : hw_clk table i ≠ clk_ptr.NULL) :
    (∀ (env : Env) (clkspec : of_phandle_args) (_data : device_node),
      hw_clk (rpi_firmware_delayed_get_clk env table clkspec _data).2.1 i = hw_clk table i) ∧
    (∀ (env : Env) (clkspec : of_phandle_args) (_data : device_node),
      clkspec.args_count = 1 → clkspec.args.getD 0 0 = i →
      rpi_firmware_delayed_get_clk env table clkspec _data = (hw_clk table i, table, [])) ∧
    (∀ calls : List Call, hw_clk (resolve_seq table calls).1 i = hw_clk table i) ∧
    (∀ (calls : List Call) (k : Nat) (c : Call), calls[k]? = some c →
      c.clkspec.args_count = 1 → c.clkspec.args.getD 0 0 = i →
      (resolve_seq table calls).2[k]? = some (hw_clk table i, [])) := by
  refine ⟨?_, ?_, ?_, ?_⟩
  · intro env clkspec _data
    exact resolve_keeps_registered env table clkspec _data i hreg
  · intro env clkspec _data hcount hidx
    subst hidx
    exact resolve_registered env table clkspec _data hcount hi hreg
  · intro calls
    exact resolve_seq_keeps_registered calls table i hreg
  · intro calls k c hk hcount hidx
    exact resolve_seq_returns_registered calls table i hi hreg k c hk hcount hidx

theorem C1_registered_handle_is_stable_witness :
    2 < ARRAY_SIZE table_arm_registered ∧
    hw_clk table_arm_registered 2 ≠ clk_ptr.NULL ∧
    rpi_firmware_delayed_get_clk env_register_fails table_arm_registered (spec_of 2) 5
      = (hw_clk table_arm_registered 2, table_arm_registered, []) ∧
    hw_clk (resolve_seq table_arm_registered
        [⟨env_register_fails, spec_of 3, 5⟩, ⟨env_not_probed, spec_of 2, 6⟩]).1 2
      = hw_clk table_arm_registered 2 :=
  ⟨by decide, by decide,
    (C1_registered_handle_is_stable table_arm_registered 2 (by decide) (by decide)).2.1
      env_register_fails (spec_of 2) 5 rfl rfl,
    (C1_registered_handle_is_stable table_arm_registered 2 (by decide) (by decide)).2.2.1 _⟩

/-- C2: for a valid index of an unregistered clock whose consumer has a firmware phandle
while the firmware device has no driver data, the provider returns
`ERR_PTR(-EPROBE_DEFER)`, makes no call and leaves the table as it was; a later call for
the same index, with the firmware device probed and `clk_register` not failing, calls
`clk_register` once and returns the handle `clk_register` returned. -/
theorem C2_not_probed_defers (env : Env) (table : List rpi_firmware_clock)
    (clkspec : of_phandle_args) (_data : device_node) (firmware_node : device_node)
    (hcount : clkspec.args_count = 1) (hidx : clkspec.args.getD 0 0 < ARRAY_SIZE table)
    (hunreg : hw_clk table (clkspec.args.getD 0 0) = clk_ptr.NULL)
    (hfw : env.of_parse_phandle _data "firmware" 0 = some firmware_node)
    (hnot : env.platform_get_drvdata (env.of_find_device_by_node firmware_node) = none) :
    rpi_firmware_delayed_get_clk env table clkspec _data
      = (clk_ptr.ERR_PTR (-EPROBE_DEFER), table, []) ∧
    ∀ (env2 : Env) (_data2 : device_node) (firmware_node2 : device_node),
      env2.of_parse_phandle _data2 "firmware" 0 = some firmware_node2 →
      env2.platform_get_drvdata (env2.of_find_device_by_node firmware_node2) ≠ none →
      (∀ dev hw, IS_ERR (env2.clk_register dev hw).1 = false) →
      IS_ERR (rpi_firmware_delayed_get_clk env2
          (rpi_firmware_delayed_get_clk env table clkspec _data).2.1 clkspec _data2).1 = false ∧
      (rpi_firmware_delayed_get_clk env2
          (rpi_firmware_delayed_get_clk env table clkspec _data).2.1 clkspec _data2).1
        = (env2.clk_register (env2.of_find_device_by_node _data2)
            (hw_at_register (table.get ⟨clkspec.args.getD 0 0, hidx⟩))).1 ∧
      (rpi_firmware_delayed_get_clk env2
          (rpi_firmware_delayed_get_clk env table clkspec _data).2.1 clkspec _data2).2.2
        = [Event.clk_register (env2.of_find_device_by_node _data2)
            (hw_at_register (table.get ⟨clkspec.args.getD 0 0, hidx⟩))] := by
  have h1 := resolve_not_probed env table clkspec _data firmware_node hcount hidx hunreg hfw hnot
  refine ⟨h1, ?_⟩
  intro env2 _data2 firmware_node2 hfw2 hready2 hok
  rw [h1]
  simp only
  rw [resolve_registers env2 table clkspec _data2 firmware_node2 hcount hidx hunreg hfw2 hready2]
  exact ⟨hok _ _, rfl, rfl⟩

theorem C2_not_probed_defers_witness :
    rpi_firmware_delayed_get_clk env_not_probed rpi_clocks (spec_of 2) 5
      = (clk_ptr.ERR_PTR (-EPROBE_DEFER), rpi_clocks, []) ∧
    (rpi_firmware_delayed_get_clk env_ready
        (rpi_firmware_delayed_get_clk env_not_probed rpi_clocks (spec_of 2) 5).2.1
        (spec_of 2) 5).1 = clk_ptr.ptr 4096 :=
  ⟨(C2_not_probed_defers env_not_probed rpi_clocks (spec_of 2) 5 7
      rfl (by decide) (by decide) rfl rfl).1,
    ((C2_not_probed_defers env_not_probed rpi_clocks (spec_of 2) 5 7
      rfl (by decide) (by decide) rfl rfl).2 env_ready 5 7 rfl (by decide)
      (by intro dev hw; rfl)).2.1⟩

/-- C4: for a valid index of an unregistered clock with a present and probed firmware
device, when `clk_register` fails with errno `e` the provider returns `ERR_PTR(e)` after
that one call of `clk_register`, and `hw.clk` of the descriptor is still `NULL`; a later
call for the same index calls `clk_register` again, on a `clk_hw` whose `clk` is `NULL`,
and returns what that call returns. -/
theorem C4_registration_failure_not_cached (env : Env)
    (outcome : device → clk_hw → Except Int Nat) (e : Int)
    (table : List rpi_firmware_clock)
    (clkspec : of_phandle_args) (_data : device_node) (firmware_node : device_node)
    (hcount : clkspec.args_count = 1) (hidx : clkspec.args.getD 0 0 < ARRAY_SIZE table)
    (hunreg : hw_clk table (clkspec.args.getD 0 0) = clk_ptr.NULL)
    (hfw : env.of_parse_phandle _data "firmware" 0 = some firmware_node)
    (hready : env.platform_get_drvdata (env.of_find_device_by_node firmware_node) ≠ none)
    (hcollab : env.clk_register = clk_register outcome)
    (hfail : outcome (env.of_find_device_by_node _data)
      (hw_at_register (table.get ⟨clkspec.args.getD 0 0, hidx⟩)) = Except.error e) :
    (rpi_firmware_delayed_get_clk env table clkspec _data).1 = clk_ptr.ERR_PTR e ∧
    (rpi_firmware_delayed_get_clk env table clkspec _data).2.2
      = [Event.clk_register (env.of_find_device_by_node _data)
          (hw_at_register (table.get ⟨clkspec.args.getD 0 0, hidx⟩))] ∧
    hw_clk (rpi_firmware_delayed_get_clk env table clkspec _data).2.1 (clkspec.args.getD 0 0)
      = clk_ptr.NULL ∧
    ∀ (env2 : Env) (_data2 : device_node) (firmware_node2 : device_node),
      env2.of_parse_phandle _data2 "firmware" 0 = some firmware_node2 →
      env2.platform_get_drvdata (env2.of_find_device_by_node firmware_node2) ≠ none →
      ∃ hw2 : clk_hw, hw2.clk = clk_ptr.NULL ∧
        (rpi_firmware_delayed_get_clk env2
            (rpi_firmware_delayed_get_clk env table clkspec _data).2.1 clkspec _data2).2.2
          = [Event.clk_register (env2.of_find_device_by_node _data2) hw2] ∧
        (rpi_firmware_delayed_get_clk env2
            (rpi_firmware_delayed_get_clk env table clkspec _data).2.1 clkspec _data2).1
          = (env2.clk_register (env2.of_find_device_by_node _data2) hw2).1 := by
  have hlt : clkspec.args.getD 0 0 < table.length := hidx
  have hnull : (table.get ⟨clkspec.args.getD 0 0, hidx⟩).hw.clk = clk_ptr.NULL := by
    rw [← hw_clk_of_get table _ hlt]; exact hunreg
  have h1 := resolve_registers env table clkspec _data firmware_node hcount hidx hunreg hfw hready
  have hreg : env.clk_register (env.of_find_device_by_node _data)
      (hw_at_register (table.get ⟨clkspec.args.getD 0 0, hidx⟩))
      = (clk_ptr.ERR_PTR e, hw_at_register (table.get ⟨clkspec.args.getD 0 0, hidx⟩)) := by
    rw [hcollab]; simp only [clk_register, hfail]
  rw [hreg] at h1
  have hunreg2 : hw_clk (rpi_firmware_delayed_get_clk env table clkspec _data).2.1
      (clkspec.args.getD 0 0) = clk_ptr.NULL := by
    rw [h1]
    simp only
    rw [hw_clk_set_eq _ _ _ hlt]
    simp only [hw_at_register, hnull]
  refine ⟨by rw [h1], by rw [h1], hunreg2, ?_⟩
  intro env2 _data2 firmware_node2 hfw2 hready2
  have hidx2 : clkspec.args.getD 0 0
      < ARRAY_SIZE (rpi_firmware_delayed_get_clk env table clkspec _data).2.1 := by
    rw [resolve_array_size]; exact hidx
  have h2 := resolve_registers env2 _ clkspec _data2 firmware_node2 hcount hidx2 hunreg2
    hfw2 hready2
  refine ⟨hw_at_register ((rpi_firmware_delayed_get_clk env table clkspec _data).2.1.get
    ⟨clkspec.args.getD 0 0, hidx2⟩), ?_, by rw [h2], by rw [h2]⟩
  have := hw_clk_of_get _ _ hidx2
  rw [hunreg2] at this
  simp only [hw_at_register]
  exact this.symm

theorem C4_registration_failure_not_cached_witness :
    (rpi_firmware_delayed_get_clk env_register_fails rpi_clocks (spec_of 2) 5).1
      = clk_ptr.ERR_PTR (-12) ∧
    hw_clk (rpi_firmware_delayed_get_clk env_register_fails rpi_clocks (spec_of 2) 5).2.1 2
      = clk_ptr.NULL :=
  ⟨(C4_registration_failure_not_cached env_register_fails (fun _ _ => Except.error (-12))
      (-12) rpi_clocks (spec_of 2) 5 7 rfl (by decide) (by decide) rfl (by decide) rfl rfl).1,
    (C4_registration_failure_not_cached env_register_fails (fun _ _ => Except.error (-12))
      (-12) rpi_clocks (spec_of 2) 5 7 rfl (by decide) (by decide) rfl (by decide) rfl rfl).2.2.1⟩

/-- C5, as stated, fails: on the static table, a call for the valid index 2 from a consumer
without firmware phandle and a call for the out-of-range index 10 have the same outcome,
`ERR_PTR(-ENODEV)` with nothing changed, so the caller cannot tell them apart. -/
theorem C5_counterexample :
    (rpi_firmware_delayed_get_clk env_no_firmware rpi_clocks (spec_of 2) 5).1
      = clk_ptr.ERR_PTR (-19) ∧
    (rpi_firmware_delayed_get_clk env_no_firmware rpi_clocks (spec_of 10) 5).1
      = clk_ptr.ERR_PTR (-19) ∧
    rpi_firmware_delayed_get_clk env_no_firmware rpi_clocks (spec_of 2) 5
      = rpi_firmware_delayed_get_clk env_no_firmware rpi_clocks (spec_of 10) 5 := by
  refine ⟨by decide, by decide, by decide⟩

/-- C5, amended: for a valid index of an unregistered clock whose consumer has no firmware
phandle, the provider returns `ERR_PTR(-ENODEV)`, makes no call and leaves the table as
it was; a call with an out-of-range index has the very same outcome; and `-ENODEV`
differs from the `-EPROBE_DEFER` of a firmware device that is not probed yet. -/
theorem C5_missing_firmware_is_enodev (env : Env) (table : List rpi_firmware_clock)
    (clkspec : of_phandle_args) (_data : device_node)
    (hcount : clkspec.args_count = 1) (hidx : clkspec.args.getD 0 0 < ARRAY_SIZE table)
    (hunreg : hw_clk table (clkspec.args.getD 0 0) = clk_ptr.NULL)
    (hfw : env.of_parse_phandle _data "firmware" 0 = none) :
    rpi_firmware_delayed_get_clk env table clkspec _data
      = (clk_ptr.ERR_PTR (-ENODEV), table, []) ∧
    (∀ clkspec2 : of_phandle_args, clkspec2.args.getD 0 0 ≥ ARRAY_SIZE table →
      rpi_firmware_delayed_get_clk env table clkspec2 _data
        = rpi_firmware_delayed_get_clk env table clkspec _data) ∧
    clk_ptr.ERR_PTR (-ENODEV) ≠ clk_ptr.ERR_PTR (-EPROBE_DEFER) := by
  have h1 := resolve_missing_firmware env table clkspec _data hcount hidx hunreg hfw
  refine ⟨h1, ?_, by decide⟩
  intro clkspec2 h2
  rw [h1, resolve_out_of_range env table clkspec2 _data h2]

theorem C5_missing_firmware_is_enodev_witness :
    rpi_firmware_delayed_get_clk env_no_firmware rpi_clocks (spec_of 4) 5
      = (clk_ptr.ERR_PTR (-ENODEV), rpi_clocks, []) :=
  (C5_missing_firmware_is_enodev env_no_firmware rpi_clocks (spec_of 4) 5
    rfl (by decide) (by decide) rfl).1

/-! ## Theorems : the clock operations -/

open rpi_firmware_property_tag

theorem and_bit1 (n : Nat) : (n &&& (1 <<< 1)) ≠ 0 ↔ n.testBit 1 = true := by
  have h : (1 <<< 1 : Nat) = 2 ^ 1 := by decide
  rw [h, Nat.and_two_pow]
  cases n.testBit 1 <;> simp

theorem table_clock_id_is_word :
    ∀ c ∈ rpi_clocks, Int.ofNat (u32_of_int c.clock_id) = c.clock_id := by
  decide

theorem set_enable_ret {σ : Type} (t : Transport σ) (w : World σ)
    (rpi_clk : rpi_firmware_clock) (enable : Bool) :
    (rpi_clk_set_enable t w rpi_clk enable).1
      = if (rpi_firmware_property t w rpi_clk.firmware_node RPI_FIRMWARE_SET_CLOCK_STATE
              (u32_of_int rpi_clk.clock_id, if enable then 1 else 0)).1 ≠ 0 ∨
            (rpi_firmware_property t w rpi_clk.firmware_node RPI_FIRMWARE_SET_CLOCK_STATE
              (u32_of_int rpi_clk.clock_id, if enable then 1 else 0)).2.1.2.testBit 1 = true
        then -EINVAL else 0 := by
  unfold rpi_clk_set_enable
  simp only [and_bit1]
  by_cases hc : (rpi_firmware_property t w rpi_clk.firmware_node RPI_FIRMWARE_SET_CLOCK_STATE
      (u32_of_int rpi_clk.clock_id, if enable then 1 else 0)).1 ≠ 0 ∨
    (rpi_firmware_property t w rpi_clk.firmware_node RPI_FIRMWARE_SET_CLOCK_STATE
      (u32_of_int rpi_clk.clock_id, if enable then 1 else 0)).2.1.2.testBit 1 = true
  · rw [if_pos hc, if_pos hc]
  · rw [if_neg hc, if_neg hc]

theorem set_enable_events {σ : Type} (t : Transport σ) (w : World σ)
    (rpi_clk : rpi_firmware_clock) (enable : Bool) :
    (rpi_clk_set_enable t w rpi_clk enable).2.events
      = w.events ++ Event.rpi_firmware_property rpi_clk.firmware_node
          RPI_FIRMWARE_SET_CLOCK_STATE (u32_of_int rpi_clk.clock_id, if enable then 1 else 0)
        :: (if (rpi_firmware_property t w rpi_clk.firmware_node RPI_FIRMWARE_SET_CLOCK_STATE
              (u32_of_int rpi_clk.clock_id, if enable then 1 else 0)).1 ≠ 0 ∨
            (rpi_firmware_property t w rpi_clk.firmware_node RPI_FIRMWARE_SET_CLOCK_STATE
              (u32_of_int rpi_clk.clock_id, if enable then 1 else 0)).2.1.2.testBit 1 = true
          then []
          else [Event.rpi_firmware_property rpi_clk.firmware_node
            RPI_FIRMWARE_GET_CLOCK_STATE (u32_of_int rpi_clk.clock_id, 0)]) := by
  unfold rpi_clk_set_enable
  simp only [and_bit1]
  by_cases hc : (rpi_firmware_property t w rpi_clk.firmware_node RPI_FIRMWARE_SET_CLOCK_STATE
      (u32_of_int rpi_clk.clock_id, if enable then 1 else 0)).1 ≠ 0 ∨
    (rpi_firmware_property t w rpi_clk.firmware_node RPI_FIRMWARE_SET_CLOCK_STATE
      (u32_of_int rpi_clk.clock_id, if enable then 1 else 0)).2.1.2.testBit 1 = true
  · rw [if_pos hc, if_pos hc]
    simp [rpi_firmware_property]
  · rw [if_neg hc, if_neg hc]
    have hq : ∀ w2 : World σ, (rpi_clk_is_on t w2 rpi_clk).2.events
        = w2.events ++ [Event.rpi_firmware_property rpi_clk.firmware_node
            RPI_FIRMWARE_GET_CLOCK_STATE (u32_of_int rpi_clk.clock_id, 0)] := by
      intro w2; unfold rpi_clk_is_on; simp only; split <;> rfl
    rw [hq]
    simp [rpi_firmware_property]

/-- C7: `rpi_clk_on` first sends the packet `[clock_id, 1]` with tag
`RPI_FIRMWARE_SET_CLOCK_STATE`; it returns an error (and then `-EINVAL`) exactly when
that call fails or bit 1 of the second word of the response is set, and 0 otherwise; its
return value is the same for every transport that answers this first request alike, so
the later `rpi_clk_is_on` query has no influence on it. -/
theorem C7_turn_on {σ : Type} (t : Transport σ) (w : World σ) (rpi_clk : rpi_firmware_clock) :
    (∃ rest : List Event, (rpi_clk_on t w rpi_clk).2.events
      = w.events ++ Event.rpi_firmware_property rpi_clk.firmware_node
          RPI_FIRMWARE_SET_CLOCK_STATE (u32_of_int rpi_clk.clock_id, 1) :: rest) ∧
    ((rpi_clk_on t w rpi_clk).1 ≠ 0 ↔
      ((rpi_firmware_property t w rpi_clk.firmware_node RPI_FIRMWARE_SET_CLOCK_STATE
          (u32_of_int rpi_clk.clock_id, 1)).1 ≠ 0 ∨
       (rpi_firmware_property t w rpi_clk.firmware_node RPI_FIRMWARE_SET_CLOCK_STATE
          (u32_of_int rpi_clk.clock_id, 1)).2.1.2.testBit 1 = true)) ∧
    ((rpi_clk_on t w rpi_clk).1 = 0 ∨ (rpi_clk_on t w rpi_clk).1 = -EINVAL) ∧
    (∀ t2 : Transport σ,
      t2 w.firmware rpi_clk.firmware_node RPI_FIRMWARE_SET_CLOCK_STATE
          (u32_of_int rpi_clk.clock_id, 1)
        = t w.firmware rpi_clk.firmware_node RPI_FIRMWARE_SET_CLOCK_STATE
          (u32_of_int rpi_clk.clock_id, 1) →
      (rpi_clk_on t2 w rpi_clk).1 = (rpi_clk_on t w rpi_clk).1) ∧
    (∀ c ∈ rpi_clocks, Int.ofNat (u32_of_int c.clock_id) = c.clock_id) := by
  have hret := set_enable_ret t w rpi_clk true
  have hev := set_enable_events t w rpi_clk true
  simp only [if_true] at hret hev
  refine ⟨⟨_, hev⟩, ?_, ?_, ?_, table_clock_id_is_word⟩
  · unfold rpi_clk_on
    rw [hret]
    split
    · rename_i h; simp [h, EINVAL]
    · rename_i h; simp [h]
  · unfold rpi_clk_on
    rw [hret]
    split
    · right; rfl
    · left; rfl
  · intro t2 h
    have hret2 := set_enable_ret t2 w rpi_clk true
    simp only [if_true] at hret2
    unfold rpi_clk_on
    rw [hret, hret2]
    simp only [rpi_firmware_property, h]

/-- C9: `rpi_clk_get_rate` makes one transport call, the packet `[clock_id, 0]` with tag
`RPI_FIRMWARE_GET_CLOCK_RATE`; its result does not depend on `parent_rate`; it is 0 when
the call fails and the second word of the response otherwise. -/
theorem C9_get_rate {σ : Type} (t : Transport σ) (w : World σ) (rpi_clk : rpi_firmware_clock)
    (parent_rate : Nat) :
    (rpi_clk_get_rate t w rpi_clk parent_rate).2
      = (rpi_firmware_property t w rpi_clk.firmware_node RPI_FIRMWARE_GET_CLOCK_RATE
          (u32_of_int rpi_clk.clock_id, 0)).2.2 ∧
    (rpi_clk_get_rate t w rpi_clk parent_rate).2.events
      = w.events ++ [Event.rpi_firmware_property rpi_clk.firmware_node
          RPI_FIRMWARE_GET_CLOCK_RATE (u32_of_int rpi_clk.clock_id, 0)] ∧
    (∀ parent_rate2 : Nat,
      rpi_clk_get_rate t w rpi_clk parent_rate2 = rpi_clk_get_rate t w rpi_clk parent_rate) ∧
    ((rpi_firmware_property t w rpi_clk.firmware_node RPI_FIRMWARE_GET_CLOCK_RATE
          (u32_of_int rpi_clk.clock_id, 0)).1 ≠ 0 →
      (rpi_clk_get_rate t w rpi_clk parent_rate).1 = 0) ∧
    ((rpi_firmware_property t w rpi_clk.firmware_node RPI_FIRMWARE_GET_CLOCK_RATE
          (u32_of_int rpi_clk.clock_id, 0)).1 = 0 →
      (rpi_clk_get_rate t w rpi_clk parent_rate).1
        = (rpi_firmware_property t w rpi_clk.firmware_node RPI_FIRMWARE_GET_CLOCK_RATE
            (u32_of_int rpi_clk.clock_id, 0)).2.1.2) ∧
    (∀ c ∈ rpi_clocks, Int.ofNat (u32_of_int c.clock_id) = c.clock_id) := by
  refine ⟨?_, ?_, ?_, ?_, ?_, table_clock_id_is_word⟩
  · unfold rpi_clk_get_rate; simp only; split <;> rfl
  · unfold rpi_clk_get_rate; simp only; split <;> rfl
  · intro p2; rfl
  · intro h; unfold rpi_clk_get_rate; simp only [h, ne_eq, not_false_eq_true, if_true]
  · intro h; unfold rpi_clk_get_rate; simp only [h, ne_eq, not_true_eq_false, if_false]

/-- The second word of the request of `rpi_clk_set_rate` is the rate converted to `u32`. -/
theorem set_rate_request (σ : Type) (t : Transport σ) (w : World σ)
    (rpi_clk : rpi_firmware_clock) (rate parent_rate : Nat) :
    (rpi_clk_set_rate t w rpi_clk rate parent_rate).2.events
      = w.events ++ [Event.rpi_firmware_property rpi_clk.firmware_node
          RPI_FIRMWARE_SET_CLOCK_RATE (u32_of_int rpi_clk.clock_id, rate % 2 ^ 32)] := by
  unfold rpi_clk_set_rate
  simp only
  split <;> rfl

/-- C8: for every rate an `unsigned long` holds, `rpi_clk_set_rate` makes one transport
call, the packet `[clock_id, rate]` with tag `RPI_FIRMWARE_SET_CLOCK_RATE`; it returns
the return code of that call, so an error exactly when the transport fails and 0 when it
succeeds, whatever the response packet holds. -/
theorem C8_set_rate {σ : Type} (t : Transport σ) (w : World σ) (rpi_clk : rpi_firmware_clock)
    (rate parent_rate : Nat) (hrate : rate < 2 ^ BITS_PER_LONG) :
    (rpi_clk_set_rate t w rpi_clk rate parent_rate).2
      = (rpi_firmware_property t w rpi_clk.firmware_node RPI_FIRMWARE_SET_CLOCK_RATE
          (u32_of_int rpi_clk.clock_id, rate)).2.2 ∧
    (rpi_clk_set_rate t w rpi_clk rate parent_rate).2.events
      = w.events ++ [Event.rpi_firmware_property rpi_clk.firmware_node
          RPI_FIRMWARE_SET_CLOCK_RATE (u32_of_int rpi_clk.clock_id, rate)] ∧
    ((rpi_clk_set_rate t w rpi_clk rate parent_rate).1 ≠ 0 ↔
      (rpi_firmware_property t w rpi_clk.firmware_node RPI_FIRMWARE_SET_CLOCK_RATE
          (u32_of_int rpi_clk.clock_id, rate)).1 ≠ 0) ∧
    (rpi_clk_set_rate t w rpi_clk rate parent_rate).1
      = (rpi_firmware_property t w rpi_clk.firmware_node RPI_FIRMWARE_SET_CLOCK_RATE
          (u32_of_int rpi_clk.clock_id, rate)).1 ∧
    (∀ t2 : Transport σ,
      (t2 w.firmware rpi_clk.firmware_node RPI_FIRMWARE_SET_CLOCK_RATE
          (u32_of_int rpi_clk.clock_id, rate)).1
        = (t w.firmware rpi_clk.firmware_node RPI_FIRMWARE_SET_CLOCK_RATE
          (u32_of_int rpi_clk.clock_id, rate)).1 →
      (rpi_clk_set_rate t2 w rpi_clk rate parent_rate).1
        = (rpi_clk_set_rate t w rpi_clk rate parent_rate).1) ∧
    (∀ c ∈ rpi_clocks, Int.ofNat (u32_of_int c.clock_id) = c.clock_id) := by
  have hr : u32_of_nat rate = rate := by
    unfold u32_of_nat; exact Nat.mod_eq_of_lt (by simpa [BITS_PER_LONG] using hrate)
  have key : ∀ t1 : Transport σ, (rpi_clk_set_rate t1 w rpi_clk rate parent_rate).1
      = (t1 w.firmware rpi_clk.firmware_node RPI_FIRMWARE_SET_CLOCK_RATE
          (u32_of_int rpi_clk.clock_id, rate)).1 := by
    intro t1
    unfold rpi_clk_set_rate rpi_firmware_property
    simp only [hr]
    split
    · rfl
    · rename_i h; simp only [ne_eq, not_not] at h; rw [h]
  refine ⟨?_, ?_, ?_, ?_, ?_, table_clock_id_is_word⟩
  · unfold rpi_clk_set_rate; simp only [hr]; split <;> rfl
  · unfold rpi_clk_set_rate; simp only [hr]; split <;> rfl
  · rw [key]; rfl
  · rw [key]; rfl
  · intro t2 h; rw [key, key, h]

/-- C10: `rpi_clk_is_on` makes one transport call, the packet `[clock_id, 0]` with tag
`RPI_FIRMWARE_GET_CLOCK_STATE`; it returns 0 when the call fails; when the call succeeds
it returns 1 if the second word of the response is nonzero and 0 if that word is zero. -/
theorem C10_is_on {σ : Type} (t : Transport σ) (w : World σ) (rpi_clk : rpi_firmware_clock) :
    (rpi_clk_is_on t w rpi_clk).2
      = (rpi_firmware_property t w rpi_clk.firmware_node RPI_FIRMWARE_GET_CLOCK_STATE
          (u32_of_int rpi_clk.clock_id, 0)).2.2 ∧
    (rpi_clk_is_on t w rpi_clk).2.events
      = w.events ++ [Event.rpi_firmware_property rpi_clk.firmware_node
          RPI_FIRMWARE_GET_CLOCK_STATE (u32_of_int rpi_clk.clock_id, 0)] ∧
    ((rpi_firmware_property t w rpi_clk.firmware_node RPI_FIRMWARE_GET_CLOCK_STATE
          (u32_of_int rpi_clk.clock_id, 0)).1 ≠ 0 → (rpi_clk_is_on t w rpi_clk).1 = 0) ∧
    ((rpi_firmware_property t w rpi_clk.firmware_node RPI_FIRMWARE_GET_CLOCK_STATE
          (u32_of_int rpi_clk.clock_id, 0)).1 = 0 →
      ((rpi_clk_is_on t w rpi_clk).1 = 1 ↔
        (rpi_firmware_property t w rpi_clk.firmware_node RPI_FIRMWARE_GET_CLOCK_STATE
          (u32_of_int rpi_clk.clock_id, 0)).2.1.2 ≠ 0) ∧
      ((rpi_clk_is_on t w rpi_clk).1 = 0 ↔
        (rpi_firmware_property t w rpi_clk.firmware_node RPI_FIRMWARE_GET_CLOCK_STATE
          (u32_of_int rpi_clk.clock_id, 0)).2.1.2 = 0)) ∧
    (∀ c ∈ rpi_clocks, Int.ofNat (u32_of_int c.clock_id) = c.clock_id) := by
  refine ⟨?_, ?_, ?_, ?_, table_clock_id_is_word⟩
  · unfold rpi_clk_is_on; simp only; split <;> rfl
  · unfold rpi_clk_is_on; simp only; split <;> rfl
  · intro h; unfold rpi_clk_is_on; simp only [h, ne_eq, not_false_eq_true, if_true]
  · intro h
    unfold rpi_clk_is_on
    simp only [h, ne_eq, not_true_eq_false, if_false]
    constructor <;> split <;> simp_all


theorem C7_turn_on_witness :
    (rpi_clk_on sample_transport world0 sample_arm_clock).1 = 0 ∧
    (rpi_clk_on failing_transport world0 sample_arm_clock).1 ≠ 0 :=
  ⟨not_not.mp (mt (C7_turn_on sample_transport world0 sample_arm_clock).2.1.mp (by decide)),
    (C7_turn_on failing_transport world0 sample_arm_clock).2.1.mpr (Or.inl (by decide))⟩

theorem C8_set_rate_witness :
    (900000000 : Nat) < 2 ^ BITS_PER_LONG ∧
    (rpi_clk_set_rate sample_transport world0 sample_arm_clock 900000000 0).2.events
      = [Event.rpi_firmware_property (some 7)
          rpi_firmware_property_tag.RPI_FIRMWARE_SET_CLOCK_RATE (3, 900000000)] :=
  ⟨by decide,
    (C8_set_rate sample_transport world0 sample_arm_clock 900000000 0 (by decide)).2.1⟩

theorem C9_get_rate_witness :
    (rpi_clk_get_rate sample_transport world0 sample_arm_clock 0).1 = 700000000 ∧
    (rpi_clk_get_rate failing_transport world0 sample_arm_clock 0).1 = 0 :=
  ⟨(C9_get_rate sample_transport world0 sample_arm_clock 0).2.2.2.2.1 rfl,
    (C9_get_rate failing_transport world0 sample_arm_clock 0).2.2.2.1 (by decide)⟩

theorem C10_is_on_witness :
    (rpi_clk_is_on sample_transport world0 sample_arm_clock).1 = 1 ∧
    (rpi_clk_is_on failing_transport world0 sample_arm_clock).1 = 0 :=
  ⟨((C10_is_on sample_transport world0 sample_arm_clock).2.2.2.1 rfl).1.mpr (by decide),
    (C10_is_on failing_transport world0 sample_arm_clock).2.2.1 (by decide)⟩

/-! ## Theorems : the deferred provider under concurrent callers -/

theorem steps_left_set (pcs : List Pc) (k : Nat) (pc pc2 : Pc) (h : pcs[k]? = some pc) :
    steps_left (pcs.set k pc2) + pc.steps_left = steps_left pcs + pc2.steps_left := by
  induction pcs generalizing k with
  | nil => simp at h
  | cons a rest ih =>
    cases k with
    | zero =>
      simp at h
      subst h
      simp [steps_left]
      omega
    | succ k =>
      simp at h
      have := ih k h
      simp [steps_left] at this ⊢
      omega

theorem pc_ok_frame (M M2 : Option Nat) (clk clk2 : clk_ptr) (j k : Nat) (pc : Pc)
    (hjk : j ≠ k) (h : pc_ok M clk j pc)
    (hM : M2 = M ∨ (M = none ∧ M2 = some k) ∨ (M = some k ∧ M2 = none))
    (hclk : clk2 = clk ∨ (M = some k ∧ clk = clk_ptr.NULL)) :
    pc_ok M2 clk2 j pc := by
  have hne : some k ≠ some j := fun h => hjk (Option.some.inj h).symm
  cases pc <;> simp only [pc_ok] at h ⊢ <;>
    rcases hM with rfl | ⟨rfl, rfl⟩ | ⟨rfl, rfl⟩ <;>
    rcases hclk with rfl | ⟨hk, rfl⟩ <;> simp_all

theorem pc_ok_holds (M : Option Nat) (clk : clk_ptr) (k : Nat) (pc : Pc)
    (h : pc_ok M clk k pc) : pc.holds_mutex = true ↔ M = some k := by
  cases pc <;> simp_all [pc_ok, Pc.holds_mutex]

theorem sys_inv_update (calls : List Call) (idx : Nat) (s : Sys) (k : Nat) (pc pc2 : Pc)
    (T2 : List rpi_firmware_clock) (M2 : Option Nat) (E2 : List Event)
    (hinv : sys_inv calls idx s) (hk : s.pcs[k]? = some pc)
    (hlen : ARRAY_SIZE T2 = ARRAY_SIZE s.table)
    (hM : M2 = s.mutex ∨ (s.mutex = none ∧ M2 = some k) ∨ (s.mutex = some k ∧ M2 = none))
    (hclk : hw_clk T2 idx = hw_clk s.table idx ∨
      (s.mutex = some k ∧ hw_clk s.table idx = clk_ptr.NULL))
    (hev : (hw_clk T2 idx = clk_ptr.NULL ∧ E2 = []) ∨
      (∃ addr dev hw, hw_clk T2 idx = clk_ptr.ptr addr ∧ E2 = [Event.clk_register dev hw]))
    (hpc : pc_ok M2 (hw_clk T2 idx) k pc2) :
    sys_inv calls idx { table := T2, mutex := M2, events := E2, pcs := s.pcs.set k pc2 } := by
  obtain ⟨h1, h2, _, h4, h5⟩ := hinv
  have hklt : k < s.pcs.length := by
    rcases Nat.lt_or_ge k s.pcs.length with h | h
    · exact h
    · rw [List.getElem?_eq_none h] at hk; cases hk
  refine ⟨by simpa using h1, by rw [hlen]; exact h2, hev, ?_, ?_⟩
  · intro j pcj hj
    by_cases hjk : j = k
    · subst hjk
      simp only [List.getElem?_set_self hklt, Option.some.injEq] at hj
      subst hj
      exact hpc
    · have hj2 : s.pcs[j]? = some pcj := by
        simpa [List.getElem?_set_ne (Ne.symm hjk)] using hj
      exact pc_ok_frame _ _ _ _ j k pcj hjk (h4 j pcj hj2) hM hclk
  · intro j hj
    by_cases hjk : j = k
    · subst hjk
      exact ⟨pc2, by simp [List.getElem?_set_self hklt], (pc_ok_holds _ _ _ _ hpc).mpr hj⟩
    · have hMj : s.mutex = some j := by
        rcases hM with h | ⟨_, h⟩ | ⟨_, h⟩
        · rw [← h]; exact hj
        · rw [h] at hj; exact absurd (Option.some.inj hj).symm hjk
        · rw [h] at hj; cases hj
      obtain ⟨pcj, hpcj, hh⟩ := h5 j hMj
      exact ⟨pcj, by simpa [List.getElem?_set_ne (Ne.symm hjk)] using hpcj, hh⟩

theorem step_result (calls : List Call) (idx : Nat) (s : Sys) (k : Nat) (pc pc2 : Pc)
    (T2 : List rpi_firmware_clock) (M2 : Option Nat) (E2 : List Event)
    (hinv : sys_inv calls idx s) (hk : s.pcs[k]? = some pc)
    (hlen : ARRAY_SIZE T2 = ARRAY_SIZE s.table)
    (hM : M2 = s.mutex ∨ (s.mutex = none ∧ M2 = some k) ∨ (s.mutex = some k ∧ M2 = none))
    (hclk : hw_clk T2 idx = hw_clk s.table idx ∨
      (s.mutex = some k ∧ hw_clk s.table idx = clk_ptr.NULL))
    (hev : (hw_clk T2 idx = clk_ptr.NULL ∧ E2 = []) ∨
      (∃ addr dev hw, hw_clk T2 idx = clk_ptr.ptr addr ∧ E2 = [Event.clk_register dev hw]))
    (hpc : pc_ok M2 (hw_clk T2 idx) k pc2)
    (hfuel : pc2.steps_left < pc.steps_left) :
    sys_inv calls idx { table := T2, mutex := M2, events := E2, pcs := s.pcs.set k pc2 } ∧
    steps_left (s.pcs.set k pc2) < steps_left s.pcs := by
  refine ⟨sys_inv_update calls idx s k pc pc2 T2 M2 E2 hinv hk hlen hM hclk hev hpc, ?_⟩
  have := steps_left_set s.pcs k pc pc2 hk
  omega

theorem thread_step_spec (calls : List Call) (idx : Nat) (s : Sys) (k : Nat) (c : Call)
    (pc : Pc) (hinv : sys_inv calls idx s) (hc : CallSucceeds idx c)
    (hk : s.pcs[k]? = some pc) :
    (thread_step c k pc s = none ∧
      (pc.is_done = true ∨ ∃ fw, pc = Pc.wait_lock fw ∧ s.mutex ≠ none)) ∨
    (∃ s2, thread_step c k pc s = some s2 ∧ sys_inv calls idx s2 ∧
      steps_left s2.pcs < steps_left s.pcs) := by
  obtain ⟨hcount, hidx, ⟨fw, hfw, hready⟩, ⟨outcome, hcollab, hok⟩⟩ := hc
  have hinv0 := hinv
  obtain ⟨_, h2, h3, h4, _⟩ := hinv
  have hpc := h4 k pc hk
  have hlt : idx < s.table.length := h2
  have hget : s.table[idx]? = some (s.table.get ⟨idx, hlt⟩) := by
    simp [List.getElem?_eq_getElem hlt]
  have hclk : hw_clk s.table idx = (s.table.get ⟨idx, hlt⟩).hw.clk := hw_clk_of_get _ _ hlt
  have hnot : ¬ (idx ≥ ARRAY_SIZE s.table) := by omega
  cases pc with
  | entry =>
    right
    simp only [pc_ok] at hpc
    by_cases hreg : (s.table.get ⟨idx, hlt⟩).hw.clk = clk_ptr.NULL
    · refine ⟨{ s with pcs := s.pcs.set k (Pc.wait_lock fw) }, ?_, ?_⟩
      · simp only [thread_step, hcount, hidx, hnot, ne_eq, not_true_eq_false, if_false,
          dite_false, hreg, hfw, hready]
      · exact step_result calls idx s k _ _ s.table s.mutex s.events hinv0 hk rfl
          (Or.inl rfl) (Or.inl rfl) h3 (by simpa [pc_ok] using hpc) (by simp [Pc.steps_left])
    · refine ⟨{ s with pcs := s.pcs.set k Pc.fast_return }, ?_, ?_⟩
      · simp only [thread_step, hcount, hidx, hnot, ne_eq, not_true_eq_false, if_false,
          dite_false, hreg, not_false_eq_true, if_true]
      · exact step_result calls idx s k _ _ s.table s.mutex s.events hinv0 hk rfl
          (Or.inl rfl) (Or.inl rfl) h3 (by rw [hclk]; exact ⟨hpc, hreg⟩) (by simp [Pc.steps_left])
  | fast_return =>
    right
    simp only [pc_ok] at hpc
    refine ⟨{ s with pcs := s.pcs.set k (Pc.done (s.table.get ⟨idx, hlt⟩).hw.clk) }, ?_, ?_⟩
    · simp only [thread_step, hidx, hget]
    · exact step_result calls idx s k _ _ s.table s.mutex s.events hinv0 hk rfl
        (Or.inl rfl) (Or.inl rfl) h3 (by rw [hclk] at hpc ⊢; exact ⟨hpc.1, rfl, hpc.2⟩)
        (by simp [Pc.steps_left])
  | wait_lock fw2 =>
    cases hm : s.mutex with
    | some j =>
      left
      refine ⟨?_, Or.inr ⟨fw2, rfl, by simp⟩⟩
      simp only [thread_step, hm]
    | none =>
      right
      refine ⟨{ s with mutex := some k, pcs := s.pcs.set k (Pc.locked fw2) }, ?_, ?_⟩
      · simp only [thread_step, hm]
      · exact step_result calls idx s k _ _ s.table (some k) s.events hinv0 hk rfl
          (Or.inr (Or.inl ⟨hm, rfl⟩)) (Or.inl rfl) h3 (by simp [pc_ok]) (by simp [Pc.steps_left])
  | locked fw2 =>
    right
    simp only [pc_ok] at hpc
    by_cases hreg : (s.table.get ⟨idx, hlt⟩).hw.clk = clk_ptr.NULL
    · refine ⟨{ s with pcs := s.pcs.set k (Pc.binding fw2) }, ?_, ?_⟩
      · simp only [thread_step, hidx, hget, hreg, ne_eq, not_true_eq_false, if_false]
      · exact step_result calls idx s k _ _ s.table s.mutex s.events hinv0 hk rfl
          (Or.inl rfl) (Or.inl rfl) h3 (by rw [hclk]; exact ⟨hpc, hreg⟩) (by simp [Pc.steps_left])
    · refine ⟨{ s with pcs := s.pcs.set k Pc.unlock_return }, ?_, ?_⟩
      · simp only [thread_step, hidx, hget, hreg, ne_eq, not_false_eq_true, if_true]
      · exact step_result calls idx s k _ _ s.table s.mutex s.events hinv0 hk rfl
          (Or.inl rfl) (Or.inl rfl) h3 (by rw [hclk]; exact ⟨hpc, hreg⟩) (by simp [Pc.steps_left])
  | unlock_return =>
    right
    simp only [pc_ok] at hpc
    refine ⟨{ s with mutex := none, pcs := s.pcs.set k Pc.slow_return }, ?_, ?_⟩
    · simp only [thread_step]
    · exact step_result calls idx s k _ _ s.table none s.events hinv0 hk rfl
        (Or.inr (Or.inr ⟨hpc.1, rfl⟩)) (Or.inl rfl) h3 (by simp [pc_ok, hpc.2]) (by simp [Pc.steps_left])
  | slow_return =>
    right
    simp only [pc_ok] at hpc
    refine ⟨{ s with pcs := s.pcs.set k (Pc.done (s.table.get ⟨idx, hlt⟩).hw.clk) }, ?_, ?_⟩
    · simp only [thread_step, hidx, hget]
    · exact step_result calls idx s k _ _ s.table s.mutex s.events hinv0 hk rfl
        (Or.inl rfl) (Or.inl rfl) h3 (by rw [hclk] at hpc ⊢; exact ⟨hpc.1, rfl, hpc.2⟩)
        (by simp [Pc.steps_left])
  | binding fw2 =>
    right
    simp only [pc_ok] at hpc
    refine ⟨{ s with
      table := s.table.set idx
        { s.table.get ⟨idx, hlt⟩ with
          firmware_node := some fw2, dev := some (c.env.of_find_device_by_node c._data),
          hw := hw_at_register (s.table.get ⟨idx, hlt⟩) },
      pcs := s.pcs.set k Pc.registering }, ?_, ?_⟩
    · simp only [thread_step, hidx, hget, hw_at_register]
    · have hT : hw_clk (s.table.set idx
          { s.table.get ⟨idx, hlt⟩ with
            firmware_node := some fw2, dev := some (c.env.of_find_device_by_node c._data),
            hw := hw_at_register (s.table.get ⟨idx, hlt⟩) }) idx = hw_clk s.table idx := by
        rw [hw_clk_set_eq _ _ _ hlt, hclk]; rfl
      exact step_result calls idx s k _ _ _ s.mutex s.events hinv0 hk (by simp [ARRAY_SIZE])
        (Or.inl rfl) (Or.inl hT) (by rw [hT]; exact h3) (by rw [hT]; exact hpc) (by simp [Pc.steps_left])
  | registering =>
    right
    simp only [pc_ok] at hpc
    obtain ⟨addr, haddr⟩ := hok (c.env.of_find_device_by_node c._data)
      (s.table.get ⟨idx, hlt⟩).hw
    have hr : c.env.clk_register (c.env.of_find_device_by_node c._data)
        (s.table.get ⟨idx, hlt⟩).hw
        = (clk_ptr.ptr addr, { (s.table.get ⟨idx, hlt⟩).hw with clk := clk_ptr.ptr addr }) := by
      rw [hcollab]; simp only [clk_register, haddr]
    have hE : s.events = [] := by
      rcases h3 with ⟨_, h⟩ | ⟨a, _, _, h, _⟩
      · exact h
      · rw [hpc.2] at h; cases h
    refine ⟨{ s with
      table := s.table.set idx
        { s.table.get ⟨idx, hlt⟩ with
          hw := { (s.table.get ⟨idx, hlt⟩).hw with clk := clk_ptr.ptr addr } },
      events := s.events ++ [Event.clk_register (c.env.of_find_device_by_node c._data)
        (s.table.get ⟨idx, hlt⟩).hw],
      pcs := s.pcs.set k (Pc.unlocking (clk_ptr.ptr addr)) }, ?_, ?_⟩
    · simp only [thread_step, hidx, hget, hr]
    · have hT : hw_clk (s.table.set idx
          { s.table.get ⟨idx, hlt⟩ with
            hw := { (s.table.get ⟨idx, hlt⟩).hw with clk := clk_ptr.ptr addr } }) idx
          = clk_ptr.ptr addr := by
        rw [hw_clk_set_eq _ _ _ hlt]
      exact step_result calls idx s k _ _ _ s.mutex _ hinv0 hk (by simp [ARRAY_SIZE])
        (Or.inl rfl) (Or.inr hpc)
        (Or.inr ⟨addr, _, _, hT, by rw [hE]; rfl⟩)
        (by rw [hT]; exact ⟨hpc.1, rfl, by simp⟩) (by simp [Pc.steps_left])
  | unlocking ret =>
    right
    simp only [pc_ok] at hpc
    refine ⟨{ s with mutex := none, pcs := s.pcs.set k (Pc.done ret) }, ?_, ?_⟩
    · simp only [thread_step]
    · exact step_result calls idx s k _ _ s.table none s.events hinv0 hk rfl
        (Or.inr (Or.inr ⟨hpc.1, rfl⟩)) (Or.inl rfl) h3
        (by simp only [pc_ok]; exact ⟨by simp, hpc.2⟩) (by simp [Pc.steps_left])
  | done ret =>
    left
    exact ⟨by simp only [thread_step], Or.inl rfl⟩

theorem sys_step_inv (calls : List Call) (idx : Nat) (s : Sys) (k : Nat)
    (hcalls : ∀ c ∈ calls, CallSucceeds idx c) (hinv : sys_inv calls idx s) :
    sys_inv calls idx (sys_step calls s k) := by
  unfold sys_step
  cases hc : calls[k]? with
  | none => exact hinv
  | some c =>
    cases hp : s.pcs[k]? with
    | none => exact hinv
    | some pc =>
      have hmem : c ∈ calls := List.getElem?_mem hc
      rcases thread_step_spec calls idx s k c pc hinv (hcalls c hmem) hp with
        ⟨h, _⟩ | ⟨s2, h, hinv2, _⟩
      · simp only [h, Option.getD_none]; exact hinv
      · simp only [h, Option.getD_some]; exact hinv2

theorem sys_run_inv (calls : List Call) (idx : Nat)
    (hcalls : ∀ c ∈ calls, CallSucceeds idx c) (schedule : List Nat) :
    ∀ s : Sys, sys_inv calls idx s → sys_inv calls idx (sys_run calls s schedule) := by
  induction schedule with
  | nil => intro s h; exact h
  | cons k rest ih =>
    intro s h
    exact ih _ (sys_step_inv calls idx s k hcalls h)

theorem sys_run_append (calls : List Call) (a b : List Nat) :
    ∀ s : Sys, sys_run calls s (a ++ b) = sys_run calls (sys_run calls s a) b := by
  induction a with
  | nil => intro s; rfl
  | cons k rest ih => intro s; exact ih _

theorem sys_init_inv (calls : List Call) (idx : Nat) (table : List rpi_firmware_clock)
    (hidx : idx < ARRAY_SIZE table) (hunreg : hw_clk table idx = clk_ptr.NULL) :
    sys_inv calls idx (sys_init table calls.length) := by
  refine ⟨by simp [sys_init], hidx, Or.inl ⟨hunreg, rfl⟩, ?_, ?_⟩
  · intro k pc hk
    simp only [sys_init] at hk
    have hmem : pc ∈ List.replicate calls.length Pc.entry := List.getElem?_mem hk
    rw [List.eq_of_mem_replicate hmem]
    simp [pc_ok, sys_init]
  · intro k hk
    simp [sys_init] at hk

theorem sys_progress (calls : List Call) (idx : Nat) (s : Sys)
    (hcalls : ∀ c ∈ calls, CallSucceeds idx c) (hinv : sys_inv calls idx s)
    (hnot : ∃ pc ∈ s.pcs, pc.is_done = false) :
    ∃ k, sys_inv calls idx (sys_step calls s k) ∧
      steps_left (sys_step calls s k).pcs < steps_left s.pcs := by
  have hlen : s.pcs.length = calls.length := hinv.1
  have key : ∀ k pc, s.pcs[k]? = some pc → pc.is_done = false →
      (∀ fw, pc = Pc.wait_lock fw → s.mutex = none) →
      sys_inv calls idx (sys_step calls s k) ∧
        steps_left (sys_step calls s k).pcs < steps_left s.pcs := by
    intro k pc hp hnd hwl
    have hklt : k < s.pcs.length := by
      rcases Nat.lt_or_ge k s.pcs.length with h | h
      · exact h
      · rw [List.getElem?_eq_none h] at hp; cases hp
    have hc : calls[k]? = some (calls.get ⟨k, by omega⟩) := by
      simp [List.getElem?_eq_getElem (show k < calls.length by omega)]
    have hmem : calls.get ⟨k, by omega⟩ ∈ calls := List.get_mem _ _ _
    rcases thread_step_spec calls idx s k _ pc hinv (hcalls _ hmem) hp with
      ⟨_, h | ⟨fw, h1, h2⟩⟩ | ⟨s2, h, hinv2, hlt⟩
    · rw [h] at hnd; cases hnd
    · exact absurd (hwl fw h1) h2
    · unfold sys_step
      simp only [hc, hp, h, Option.getD_some]
      exact ⟨hinv2, hlt⟩
  cases hm : s.mutex with
  | some j =>
    obtain ⟨pc, hp, hh⟩ := hinv.2.2.2.2 j hm
    refine ⟨j, key j pc hp ?_ ?_⟩
    · cases pc <;> simp_all [Pc.holds_mutex, Pc.is_done]
    · intro fw h; rw [h] at hh; cases hh
  | none =>
    obtain ⟨pc, hmem, hnd⟩ := hnot
    obtain ⟨k, hk⟩ := List.getElem?_of_mem hmem
    exact ⟨k, key k pc hk hnd (fun _ _ => hm)⟩

theorem sys_can_finish (calls : List Call) (idx : Nat)
    (hcalls : ∀ c ∈ calls, CallSucceeds idx c) :
    ∀ (n : Nat) (s : Sys), steps_left s.pcs ≤ n → sys_inv calls idx s →
      ∃ more : List Nat, ∀ pc ∈ (sys_run calls s more).pcs, pc.is_done = true := by
  intro n
  induction n with
  | zero =>
    intro s hn hinv
    by_cases hall : ∀ pc ∈ s.pcs, pc.is_done = true
    · exact ⟨[], hall⟩
    · have hnot : ∃ pc ∈ s.pcs, pc.is_done = false := by
        simpa using hall
      obtain ⟨k, _, hlt⟩ := sys_progress calls idx s hcalls hinv hnot
      omega
  | succ n ih =>
    intro s hn hinv
    by_cases hall : ∀ pc ∈ s.pcs, pc.is_done = true
    · exact ⟨[], hall⟩
    · have hnot : ∃ pc ∈ s.pcs, pc.is_done = false := by
        simpa using hall
      obtain ⟨k, hinv2, hlt⟩ := sys_progress calls idx s hcalls hinv hnot
      obtain ⟨more, hmore⟩ := ih (sys_step calls s k) (by omega) hinv2
      exact ⟨k :: more, hmore⟩

theorem solo_done (c : Call) (T : List rpi_firmware_clock) (M : Option Nat) (E : List Event)
    (ret : clk_ptr) (schedule : List Nat) :
    sys_run [c] { table := T, mutex := M, events := E, pcs := [Pc.done ret] } schedule
      = { table := T, mutex := M, events := E, pcs := [Pc.done ret] } := by
  induction schedule with
  | nil => rfl
  | cons k rest ih =>
    have : sys_step [c] { table := T, mutex := M, events := E, pcs := [Pc.done ret] } k
        = { table := T, mutex := M, events := E, pcs := [Pc.done ret] } := by
      cases k with
      | zero => simp [sys_step, thread_step]
      | succ k => simp [sys_step]
    simp only [sys_run, this]
    exact ih

theorem solo_step (c : Call) (T : List rpi_firmware_clock) (M : Option Nat) (E : List Event)
    (pc : Pc) (rest : List Nat) :
    sys_run [c] { table := T, mutex := M, events := E, pcs := [pc] } (0 :: rest)
      = sys_run [c]
          ((thread_step c 0 pc { table := T, mutex := M, events := E, pcs := [pc] }).getD
            { table := T, mutex := M, events := E, pcs := [pc] }) rest := by
  simp [sys_run, sys_step]

/-- One thread running alone through the transition system does what the function
`rpi_firmware_delayed_get_clk` does. -/
theorem solo_run_eq (c : Call) (table : List rpi_firmware_clock) :
    sys_run [c] (sys_init table 1) [0, 0, 0, 0, 0, 0]
      = { table := (rpi_firmware_delayed_get_clk c.env table c.clkspec c._data).2.1,
          mutex := none,
          events := (rpi_firmware_delayed_get_clk c.env table c.clkspec c._data).2.2,
          pcs := [Pc.done (rpi_firmware_delayed_get_clk c.env table c.clkspec c._data).1] } := by
  have hinit : sys_init table 1
      = { table := table, mutex := none, events := [], pcs := [Pc.entry] } := rfl
  rw [hinit, solo_step]
  by_cases hc : c.clkspec.args_count = 1
  · by_cases h2 : c.clkspec.args.getD 0 0 < ARRAY_SIZE table
    · have hlt : c.clkspec.args.getD 0 0 < table.length := h2
      have hnot : ¬ (c.clkspec.args.getD 0 0 ≥ ARRAY_SIZE table) := by omega
      have hget : table[c.clkspec.args.getD 0 0]?
          = some (table.get ⟨c.clkspec.args.getD 0 0, hlt⟩) := by
        simp [List.getElem?_eq_getElem hlt]
      by_cases h3 : hw_clk table (c.clkspec.args.getD 0 0) = clk_ptr.NULL
      · have h3' : (table.get ⟨c.clkspec.args.getD 0 0, hlt⟩).hw.clk = clk_ptr.NULL := by
          rw [← hw_clk_of_get table _ hlt]; exact h3
        cases hfw : c.env.of_parse_phandle c._data "firmware" 0 with
        | none =>
          rw [resolve_missing_firmware c.env table c.clkspec c._data hc h2 h3 hfw]
          simp only [thread_step, hc, hnot, ne_eq, not_true_eq_false, if_false, dite_false,
            h3', hfw, Option.getD_some, List.set_cons_zero]
          exact solo_done c _ _ _ _ _
        | some fw =>
          by_cases h4 : c.env.platform_get_drvdata (c.env.of_find_device_by_node fw) = none
          · rw [resolve_not_probed c.env table c.clkspec c._data fw hc h2 h3 hfw h4]
            simp only [thread_step, hc, hnot, ne_eq, not_true_eq_false, if_false, dite_false,
              h3', hfw, h4, if_true, Option.getD_some, List.set_cons_zero]
            exact solo_done c _ _ _ _ _
          · rw [resolve_registers c.env table c.clkspec c._data fw hc h2 h3 hfw h4]
            simp only [thread_step, hc, hnot, ne_eq, not_true_eq_false, if_false, dite_false,
              h3', hfw, h4, Option.getD_some, List.set_cons_zero]
            rw [solo_step]
            simp only [thread_step, Option.getD_some, List.set_cons_zero]
            rw [solo_step]
            simp only [thread_step, hget, h3', ne_eq, not_true_eq_false, if_false,
              Option.getD_some, List.set_cons_zero]
            rw [solo_step]
            simp only [thread_step, hget, Option.getD_some, List.set_cons_zero]
            rw [solo_step]
            simp only [thread_step, List.getElem?_set_self hlt, Option.getD_some,
              List.set_cons_zero, List.set_set, List.nil_append]
            rw [solo_step]
            simp only [thread_step, Option.getD_some, List.set_cons_zero]
            rw [solo_done]
            rfl
      · have h3' : ¬ (table.get ⟨c.clkspec.args.getD 0 0, hlt⟩).hw.clk = clk_ptr.NULL := by
          rw [← hw_clk_of_get table _ hlt]; exact h3
        rw [resolve_registered c.env table c.clkspec c._data hc h2 h3]
        rw [hw_clk_of_get table _ hlt]
        simp only [thread_step, hc, hnot, ne_eq, not_true_eq_false, if_false, dite_false,
          h3', not_false_eq_true, if_true, Option.getD_some, List.set_cons_zero]
        rw [solo_step]
        simp only [thread_step, hget, Option.getD_some, List.set_cons_zero]
        exact solo_done c _ _ _ _ _
    · rw [resolve_out_of_range c.env table c.clkspec c._data (by omega)]
      have h2' : c.clkspec.args.getD 0 0 ≥ ARRAY_SIZE table := by omega
      simp only [thread_step, hc, h2', ne_eq, not_true_eq_false, if_false, dite_true,
        Option.getD_some, List.set_cons_zero]
      exact solo_done c _ _ _ _ _
  · rw [resolve_bad_count c.env table c.clkspec c._data hc]
    simp only [thread_step, hc, ne_eq, not_false_eq_true, if_true, Option.getD_some,
      List.set_cons_zero]
    exact solo_done c _ _ _ _ _

/-- C6, as stated, fails: two calls for the valid index 2 that run one after the other
(a legal interleaving) both return `ERR_PTR(-EPROBE_DEFER)` with no call of
`clk_register` when the firmware device is not probed, and both return `ERR_PTR(-ENOMEM)`
with two calls of `clk_register` when registration fails. -/
theorem C6_counterexample :
    ((sys_run [⟨env_not_probed, spec_of 2, 5⟩, ⟨env_not_probed, spec_of 2, 6⟩]
        (sys_init rpi_clocks 2) [0, 1]).pcs
      = [Pc.done (clk_ptr.ERR_PTR (-517)), Pc.done (clk_ptr.ERR_PTR (-517))] ∧
     List.countP Event.is_clk_register
      (sys_run [⟨env_not_probed, spec_of 2, 5⟩, ⟨env_not_probed, spec_of 2, 6⟩]
        (sys_init rpi_clocks 2) [0, 1]).events = 0) ∧
    ((sys_run [⟨env_register_fails, spec_of 2, 5⟩, ⟨env_register_fails, spec_of 2, 6⟩]
        (sys_init rpi_clocks 2) [0, 0, 0, 0, 0, 0, 1, 1, 1, 1, 1, 1]).pcs
      = [Pc.done (clk_ptr.ERR_PTR (-12)), Pc.done (clk_ptr.ERR_PTR (-12))] ∧
     List.countP Event.is_clk_register
      (sys_run [⟨env_register_fails, spec_of 2, 5⟩, ⟨env_register_fails, spec_of 2, 6⟩]
        (sys_init rpi_clocks 2) [0, 0, 0, 0, 0, 0, 1, 1, 1, 1, 1, 1]).events = 2) := by
  refine ⟨⟨by decide, by decide⟩, ⟨by decide, by decide⟩⟩

/-- C6, amended: let any number of threads call the provider for the same valid index of
an unregistered clock, each with a firmware phandle, a probed firmware device and a
`clk_register` that succeeds and stores the handle it returns in `hw.clk`.  Then after
every schedule of their steps at most one call of `clk_register` has been made; every
call that has returned has returned the handle in `hw.clk`, a valid pointer, so all
returned handles are equal, and exactly one call of `clk_register` has been made by then;
and the schedule can be continued so that all calls have returned. -/
theorem C6_exactly_once_when_registration_succeeds (calls : List Call)
    (table : List rpi_firmware_clock) (idx : Nat)
    (hidx : idx < ARRAY_SIZE table) (hunreg : hw_clk table idx = clk_ptr.NULL)
    (hcalls : ∀ c ∈ calls, CallSucceeds idx c) (schedule : List Nat) :
    List.countP Event.is_clk_register
      (sys_run calls (sys_init table calls.length) schedule).events ≤ 1 ∧
    (∀ (k : Nat) (ret : clk_ptr),
      (sys_run calls (sys_init table calls.length) schedule).pcs[k]? = some (Pc.done ret) →
      ret = hw_clk (sys_run calls (sys_init table calls.length) schedule).table idx ∧
      (∃ addr, ret = clk_ptr.ptr addr) ∧
      List.countP Event.is_clk_register
        (sys_run calls (sys_init table calls.length) schedule).events = 1) ∧
    (∀ (k1 k2 : Nat) (ret1 ret2 : clk_ptr),
      (sys_run calls (sys_init table calls.length) schedule).pcs[k1]? = some (Pc.done ret1) →
      (sys_run calls (sys_init table calls.length) schedule).pcs[k2]? = some (Pc.done ret2) →
      ret1 = ret2) ∧
    (sys_run calls (sys_init table calls.length) schedule).pcs.length = calls.length ∧
    (∃ more : List Nat,
      ∀ pc ∈ (sys_run calls (sys_init table calls.length) (schedule ++ more)).pcs,
        pc.is_done = true) := by
  have hinv := sys_run_inv calls idx hcalls schedule _ (sys_init_inv calls idx table hidx hunreg)
  have hdone : ∀ (k : Nat) (ret : clk_ptr),
      (sys_run calls (sys_init table calls.length) schedule).pcs[k]? = some (Pc.done ret) →
      ret = hw_clk (sys_run calls (sys_init table calls.length) schedule).table idx ∧
      (∃ addr, ret = clk_ptr.ptr addr) ∧
      List.countP Event.is_clk_register
        (sys_run calls (sys_init table calls.length) schedule).events = 1 := by
    intro k ret hk
    have hpc := hinv.2.2.2.1 k _ hk
    simp only [pc_ok] at hpc
    obtain ⟨_, hret, hne⟩ := hpc
    rcases hinv.2.2.1 with ⟨h, _⟩ | ⟨addr, dev, hw, h, hE⟩
    · exact absurd h hne
    · exact ⟨hret, ⟨addr, by rw [hret, h]⟩, by rw [hE]; rfl⟩
  refine ⟨?_, hdone, ?_, hinv.1, ?_⟩
  · rcases hinv.2.2.1 with ⟨_, hE⟩ | ⟨addr, dev, hw, _, hE⟩
    · rw [hE]; simp
    · rw [hE]; simp [Event.is_clk_register]
  · intro k1 k2 ret1 ret2 h1 h2
    rw [(hdone k1 ret1 h1).1, (hdone k2 ret2 h2).1]
  · obtain ⟨more, hmore⟩ := sys_can_finish calls idx hcalls _ _ (Nat.le_refl _) hinv
    exact ⟨more, by rw [sys_run_append]; exact hmore⟩

theorem C6_exactly_once_when_registration_succeeds_witness :
    2 < ARRAY_SIZE rpi_clocks ∧ hw_clk rpi_clocks 2 = clk_ptr.NULL ∧
    List.countP Event.is_clk_register
      (sys_run [⟨env_ready, spec_of 2, 5⟩, ⟨env_ready, spec_of 2, 6⟩]
        (sys_init rpi_clocks 2) [0, 1, 1, 0, 1, 0, 0, 1, 1, 0, 0, 0, 1, 1, 1]).events ≤ 1 :=
  ⟨by decide, by decide,
    (C6_exactly_once_when_registration_succeeds
      [⟨env_ready, spec_of 2, 5⟩, ⟨env_ready, spec_of 2, 6⟩] rpi_clocks 2
      (by decide) (by decide)
      (by
        intro c hc
        simp only [List.mem_cons, List.mem_singleton, List.not_mem_nil, or_false] at hc
        rcases hc with rfl | rfl <;>
          exact ⟨rfl, rfl, ⟨7, rfl, by decide⟩,
            ⟨fun _ _ => Except.ok 4096, rfl, fun _ _ => ⟨4096, rfl⟩⟩⟩)
      [0, 1, 1, 0, 1, 0, 0, 1, 1, 0, 0, 0, 1, 1, 1]).1⟩

/-! ## Theorems : the remaining clock operations -/

/-- C11: `rpi_clk_off` is total and of return type `void`, so it reports nothing to its
caller whatever the transport does; the first request it issues is the packet
`[clock_id, 0]` with tag `RPI_FIRMWARE_SET_CLOCK_STATE`, followed by the
`rpi_clk_is_on` query only when that request succeeded with bit 1 of the response
clear; through the operation table the call yields no error code. -/
theorem C11_turn_off {σ : Type} (t : Transport σ) (w : World σ) (rpi_clk : rpi_firmware_clock) :
    (rpi_clk_off t w rpi_clk).1 = () ∧
    (rpi_clk_ops t clk_op.unprepare w rpi_clk).1 = 0 ∧
    (rpi_clk_off t w rpi_clk).2.events
      = w.events ++ Event.rpi_firmware_property rpi_clk.firmware_node
          RPI_FIRMWARE_SET_CLOCK_STATE (u32_of_int rpi_clk.clock_id, 0)
        :: (if (rpi_firmware_property t w rpi_clk.firmware_node RPI_FIRMWARE_SET_CLOCK_STATE
              (u32_of_int rpi_clk.clock_id, 0)).1 ≠ 0 ∨
            (rpi_firmware_property t w rpi_clk.firmware_node RPI_FIRMWARE_SET_CLOCK_STATE
              (u32_of_int rpi_clk.clock_id, 0)).2.1.2.testBit 1 = true
          then []
          else [Event.rpi_firmware_property rpi_clk.firmware_node
            RPI_FIRMWARE_GET_CLOCK_STATE (u32_of_int rpi_clk.clock_id, 0)]) ∧
    (∀ c ∈ rpi_clocks, Int.ofNat (u32_of_int c.clock_id) = c.clock_id) := by
  refine ⟨rfl, rfl, ?_, table_clock_id_is_word⟩
  have h := set_enable_events t w rpi_clk false
  simpa [rpi_clk_off] using h

theorem C11_turn_off_witness :
    (rpi_clk_off failing_transport world0 sample_arm_clock).1 = () ∧
    (rpi_clk_off failing_transport world0 sample_arm_clock).2.events
      = [Event.rpi_firmware_property (some 7) RPI_FIRMWARE_SET_CLOCK_STATE (3, 0)] :=
  ⟨(C11_turn_off failing_transport world0 sample_arm_clock).1,
    (C11_turn_off failing_transport world0 sample_arm_clock).2.2.1⟩

/-- C12, as stated, fails: for the rate 2147483648, which an `unsigned long` holds, the
`long` that `rpi_clk_round_rate` returns is -2147483648. -/
theorem C12_counterexample :
    (2147483648 : Nat) < 2 ^ BITS_PER_LONG ∧
    (rpi_clk_round_rate sample_transport world0 sample_arm_clock 2147483648 0).1
      = -2147483648 ∧
    (rpi_clk_round_rate sample_transport world0 sample_arm_clock 2147483648 0).1
      ≠ Int.ofNat 2147483648 := by
  refine ⟨by decide, by decide, by decide⟩

/-- C12, amended: for every `unsigned long` rate below `2 ^ (BITS_PER_LONG - 1)`, the
values a `long` holds, `rpi_clk_round_rate` returns the rate itself; for the larger
rates it returns the rate minus `2 ^ BITS_PER_LONG`, a negative number; in both cases
the result converted back to `unsigned long` is the rate, it does not depend on the
clock object, `parent_rate` or the transport, and the world is left as it was, so no
transport call is made. -/
theorem C12_round_rate {σ : Type} (t : Transport σ) (w : World σ) (rpi_clk : rpi_firmware_clock)
    (rate parent_rate : Nat) (hrate : rate < 2 ^ BITS_PER_LONG) :
    (rate < 2 ^ (BITS_PER_LONG - 1) →
      (rpi_clk_round_rate t w rpi_clk rate parent_rate).1 = Int.ofNat rate) ∧
    (2 ^ (BITS_PER_LONG - 1) ≤ rate →
      (rpi_clk_round_rate t w rpi_clk rate parent_rate).1
        = Int.ofNat rate - 2 ^ BITS_PER_LONG ∧
      (rpi_clk_round_rate t w rpi_clk rate parent_rate).1 < 0) ∧
    (rpi_clk_round_rate t w rpi_clk rate parent_rate).1 % 2 ^ BITS_PER_LONG
      = Int.ofNat rate ∧
    (∀ (t2 : Transport σ) (rpi_clk2 : rpi_firmware_clock) (parent_rate2 : Nat),
      (rpi_clk_round_rate t2 w rpi_clk2 rate parent_rate2).1
        = (rpi_clk_round_rate t w rpi_clk rate parent_rate).1) ∧
    (rpi_clk_round_rate t w rpi_clk rate parent_rate).2 = w ∧
    (rpi_clk_round_rate t w rpi_clk rate parent_rate).2.events = w.events := by
  have hmod : rate % 2 ^ BITS_PER_LONG = rate := Nat.mod_eq_of_lt hrate
  have hpat : (rpi_clk_round_rate t w rpi_clk rate parent_rate).1 % 2 ^ BITS_PER_LONG
      = Int.ofNat rate := by
    have hr : (Int.ofNat rate) < 2 ^ BITS_PER_LONG := by
      have := Int.ofNat_lt.mpr hrate
      simpa using this
    have h0 : (0 : Int) ≤ Int.ofNat rate := Int.ofNat_nonneg _
    simp only [rpi_clk_round_rate, long_of_ulong, hmod]
    split
    · exact Int.emod_eq_of_lt h0 hr
    · rw [Int.sub_emod, Int.emod_self, Int.sub_zero, Int.emod_emod_of_dvd _ (dvd_refl _)]
      exact Int.emod_eq_of_lt h0 hr
  refine ⟨?_, ?_, hpat, fun _ _ _ => rfl, rfl, rfl⟩
  · intro h
    simp only [rpi_clk_round_rate, long_of_ulong, hmod, h, if_true]
  · intro h
    have hn : ¬ rate < 2 ^ (BITS_PER_LONG - 1) := by omega
    simp only [rpi_clk_round_rate, long_of_ulong, hmod, hn, if_false, true_and]
    have : (Int.ofNat rate) < 2 ^ BITS_PER_LONG := by
      have := Int.ofNat_lt.mpr hrate
      simpa using this
    omega

theorem C12_round_rate_witness :
    (900000000 : Nat) < 2 ^ BITS_PER_LONG ∧
    (rpi_clk_round_rate sample_transport world0 sample_arm_clock 900000000 0).1
      = Int.ofNat 900000000 :=
  ⟨by decide,
    (C12_round_rate sample_transport world0 sample_arm_clock 900000000 0 (by decide)).1
      (by decide)⟩

theorem rpi_clk_ops_object {σ : Type} (t : Transport σ) (op : clk_op) (w : World σ)
    (rpi_clk : rpi_firmware_clock) : (rpi_clk_ops t op w rpi_clk).2.2 = rpi_clk := by
  cases op <;> rfl

theorem rpi_clk_ops_seq_object {σ : Type} (t : Transport σ) (ops : List clk_op) :
    ∀ (w : World σ) (rpi_clk : rpi_firmware_clock),
      (rpi_clk_ops_seq t ops w rpi_clk).2.2 = rpi_clk := by
  induction ops with
  | nil => intro w rpi_clk; rfl
  | cons op rest ih =>
    intro w rpi_clk
    simp only [rpi_clk_ops_seq]
    rw [ih, rpi_clk_ops_object]

theorem rpi_clk_ops_reads {σ : Type} (t : Transport σ) (op : clk_op) (w : World σ)
    (rpi_clk rpi_clk2 : rpi_firmware_clock)
    (hid : rpi_clk2.clock_id = rpi_clk.clock_id)
    (hnode : rpi_clk2.firmware_node = rpi_clk.firmware_node) :
    (rpi_clk_ops t op w rpi_clk2).1 = (rpi_clk_ops t op w rpi_clk).1 ∧
    (rpi_clk_ops t op w rpi_clk2).2.1 = (rpi_clk_ops t op w rpi_clk).2.1 := by
  cases op <;>
    simp only [rpi_clk_ops, rpi_clk_is_on, rpi_clk_on, rpi_clk_off, rpi_clk_set_enable,
      rpi_clk_get_rate, rpi_clk_set_rate, rpi_clk_round_rate, hid, hnode, and_self]

/-- C13: no clock state is cached.  Every operation of `rpi_clk_ops`, and every sequence
of them, leaves the clock object as it was, and reads nothing of it but `clock_id` and
`firmware_node`.  After `rpi_clk_set_rate` for any rate `x`, `rpi_clk_get_rate` returns
the value `v` the transport then answers `RPI_FIRMWARE_GET_CLOCK_RATE` with, and after a
failed `rpi_clk_on`, `rpi_clk_is_on` returns 1 or 0 as the transport then answers
`RPI_FIRMWARE_GET_CLOCK_STATE` with a nonzero or a zero word (0 if the query fails). -/
theorem C13_no_cached_state {σ : Type} (t : Transport σ) (w : World σ)
    (rpi_clk : rpi_firmware_clock) :
    (∀ op : clk_op, (rpi_clk_ops t op w rpi_clk).2.2 = rpi_clk) ∧
    (∀ ops : List clk_op, (rpi_clk_ops_seq t ops w rpi_clk).2.2 = rpi_clk) ∧
    (∀ (op : clk_op) (rpi_clk2 : rpi_firmware_clock),
      rpi_clk2.clock_id = rpi_clk.clock_id →
      rpi_clk2.firmware_node = rpi_clk.firmware_node →
      (rpi_clk_ops t op w rpi_clk2).1 = (rpi_clk_ops t op w rpi_clk).1 ∧
      (rpi_clk_ops t op w rpi_clk2).2.1 = (rpi_clk_ops t op w rpi_clk).2.1) ∧
    (∀ (x parent_rate parent_rate2 v a : Nat) (s2 : σ), v < 2 ^ 32 →
      t (rpi_clk_set_rate t w rpi_clk x parent_rate).2.firmware rpi_clk.firmware_node
          RPI_FIRMWARE_GET_CLOCK_RATE (u32_of_int rpi_clk.clock_id, 0) = (0, (a, v), s2) →
      (rpi_clk_get_rate t (rpi_clk_set_rate t w rpi_clk x parent_rate).2 rpi_clk
          parent_rate2).1 = v) ∧
    ((rpi_clk_on t w rpi_clk).1 ≠ 0 →
      ∀ (ret : Int) (v a : Nat) (s2 : σ), v < 2 ^ 32 →
        t (rpi_clk_on t w rpi_clk).2.firmware rpi_clk.firmware_node
            RPI_FIRMWARE_GET_CLOCK_STATE (u32_of_int rpi_clk.clock_id, 0) = (ret, (a, v), s2) →
        (rpi_clk_is_on t (rpi_clk_on t w rpi_clk).2 rpi_clk).1
          = if ret ≠ 0 then 0 else if v ≠ 0 then 1 else 0) := by
  refine ⟨fun op => rpi_clk_ops_object t op w rpi_clk,
    fun ops => rpi_clk_ops_seq_object t ops w rpi_clk,
    fun op rpi_clk2 hid hnode => rpi_clk_ops_reads t op w rpi_clk rpi_clk2 hid hnode, ?_, ?_⟩
  · intro x parent_rate parent_rate2 v a s2 hv h
    have hv2 : u32_of_nat v = v := Nat.mod_eq_of_lt hv
    simp only [rpi_clk_get_rate, rpi_firmware_property, h, ne_eq, not_true_eq_false,
      if_false, hv2]
  · intro _ ret v a s2 hv h
    have hv2 : u32_of_nat v = v := Nat.mod_eq_of_lt hv
    simp only [rpi_clk_is_on, rpi_firmware_property, h, hv2]
    by_cases hr : ret = 0
    · simp [hr]
    · simp [hr]

theorem C13_no_cached_state_witness :
    (rpi_clk_set_rate sample_transport world0 sample_arm_clock 900000000 0).1 = 0 ∧
    (rpi_clk_get_rate sample_transport
        (rpi_clk_set_rate sample_transport world0 sample_arm_clock 900000000 0).2
        sample_arm_clock 0).1 = 700000000 ∧
    (rpi_clk_ops_seq sample_transport
        [clk_op.prepare, clk_op.set_rate 900000000 0, clk_op.recalc_rate 0, clk_op.unprepare]
        world0 sample_arm_clock).2.2 = sample_arm_clock :=
  ⟨by decide,
    (C13_no_cached_state sample_transport world0 sample_arm_clock).2.2.2.1
      900000000 0 0 700000000 3 2 (by decide) rfl,
    (C13_no_cached_state sample_transport world0 sample_arm_clock).2.1 _⟩

/-! ## Theorems : the cpufreq driver -/

theorem get_clock_populated (env : CpufreqEnv) (g : cpufreq_globals) (min max cpu : Nat)
    (hpop : freq_table_populated g min max) :
    raspberrypi_cpufreq_get_clock env g cpu
      = if env.clk_get_rate g.arm_clk / 1000 < (min / 1000 + max / 1000) / 2
        then min / 1000 else max / 1000 := by
  obtain ⟨hmin, hmax, htab⟩ := hpop
  have hsum : (min / 1000 + max / 1000) % 2 ^ 32 = min / 1000 + max / 1000 := by
    apply Nat.mod_eq_of_lt
    omega
  simp only [raspberrypi_cpufreq_get_clock, htab, List.getD_cons_zero, List.getD_cons_succ,
    hsum]

theorem set_clock_populated (env : CpufreqEnv) (g : cpufreq_globals) (min max : Nat)
    (policy : cpufreq_policy) (index : Nat)
    (hpop : freq_table_populated g min max) (hi : index < 2) :
    raspberrypi_cpufreq_set_clock env g policy index
      = if env.clk_set_rate g.arm_clk (g.raspberrypi_freq_table.getD index 0 * 1000) ≠ 0
        then (env.clk_set_rate g.arm_clk (g.raspberrypi_freq_table.getD index 0 * 1000),
          policy,
          [cpufreq_call.clk_set_rate g.arm_clk (g.raspberrypi_freq_table.getD index 0 * 1000)])
        else (0, { policy with cur := g.raspberrypi_freq_table.getD index 0 },
          [cpufreq_call.clk_set_rate g.arm_clk
            (g.raspberrypi_freq_table.getD index 0 * 1000)]) := by
  obtain ⟨hmin, hmax, htab⟩ := hpop
  have hprod : g.raspberrypi_freq_table.getD index 0 * 1000 % 2 ^ 32
      = g.raspberrypi_freq_table.getD index 0 * 1000 := by
    apply Nat.mod_eq_of_lt
    rw [htab]
    rcases Nat.lt_succ_iff_lt_or_eq.mp hi with h | h
    · have h0 : index = 0 := by omega
      subst h0
      simp only [List.getD_cons_zero]
      omega
    · subst h
      simp only [List.getD_cons_succ, List.getD_cons_zero]
      omega
  simp only [raspberrypi_cpufreq_set_clock, hprod]

/-- C14: on a table populated with `low = min / 1000` and `high = max / 1000`,
`raspberrypi_cpufreq_get_clock` returns `low` when the rate `clk_get_rate` reports,
divided by 1000, is strictly below `(low + high) / 2`, and `high` otherwise; with the
table 600000, 1200000 a rate of 700000 kHz gives 600000, and rates of 1000000 kHz and of
the mean 900000 kHz give 1200000. -/
theorem C14_get_clock_classifies (env : CpufreqEnv) (g : cpufreq_globals) (min max cpu : Nat)
    (hpop : freq_table_populated g min max) :
    (env.clk_get_rate g.arm_clk / 1000 < (min / 1000 + max / 1000) / 2 →
      raspberrypi_cpufreq_get_clock env g cpu = min / 1000) ∧
    (¬ env.clk_get_rate g.arm_clk / 1000 < (min / 1000 + max / 1000) / 2 →
      raspberrypi_cpufreq_get_clock env g cpu = max / 1000) ∧
    (min / 1000 = 600000 → max / 1000 = 1200000 →
      (env.clk_get_rate g.arm_clk / 1000 = 700000 →
        raspberrypi_cpufreq_get_clock env g cpu = 600000) ∧
      (env.clk_get_rate g.arm_clk / 1000 = 1000000 →
        raspberrypi_cpufreq_get_clock env g cpu = 1200000) ∧
      (env.clk_get_rate g.arm_clk / 1000 = 900000 →
        raspberrypi_cpufreq_get_clock env g cpu = 1200000)) := by
  have h := get_clock_populated env g min max cpu hpop
  refine ⟨?_, ?_, ?_⟩
  · intro hlt; rw [h, if_pos hlt]
  · intro hge; rw [h, if_neg hge]
  · intro hlow hhigh
    rw [h, hlow, hhigh]
    refine ⟨?_, ?_, ?_⟩ <;> intro hv <;> rw [hv] <;> decide

theorem C14_get_clock_classifies_witness :
    freq_table_populated globals_600_1200 600000000 1200000000 ∧
    raspberrypi_cpufreq_get_clock (cpufreq_env 700000000) globals_600_1200 0 = 600000 ∧
    raspberrypi_cpufreq_get_clock (cpufreq_env 1000000000) globals_600_1200 0 = 1200000 ∧
    raspberrypi_cpufreq_get_clock (cpufreq_env 900000000) globals_600_1200 0 = 1200000 :=
  ⟨⟨by decide, by decide, rfl⟩,
    ((C14_get_clock_classifies (cpufreq_env 700000000) globals_600_1200 600000000 1200000000 0
      ⟨by decide, by decide, rfl⟩).2.2 (by decide) (by decide)).1 (by decide),
    ((C14_get_clock_classifies (cpufreq_env 1000000000) globals_600_1200 600000000 1200000000 0
      ⟨by decide, by decide, rfl⟩).2.2 (by decide) (by decide)).2.1 (by decide),
    ((C14_get_clock_classifies (cpufreq_env 900000000) globals_600_1200 600000000 1200000000 0
      ⟨by decide, by decide, rfl⟩).2.2 (by decide) (by decide)).2.2 (by decide)⟩

/-- C15: on a populated table and for an index `i` of 0 or 1,
`raspberrypi_cpufreq_set_clock` makes one call, `clk_set_rate` with the rate
`table[i].frequency * 1000`; when that call returns 0 it returns 0 and sets
`policy->cur` to `table[i].frequency`; when that call returns an error it returns this
error and leaves the policy as it was. -/
theorem C15_set_clock (env : CpufreqEnv) (g : cpufreq_globals) (min max : Nat)
    (policy : cpufreq_policy) (index : Nat)
    (hpop : freq_table_populated g min max) (hi : index < 2) :
    (raspberrypi_cpufreq_set_clock env g policy index).2.2
      = [cpufreq_call.clk_set_rate g.arm_clk (g.raspberrypi_freq_table.getD index 0 * 1000)] ∧
    (env.clk_set_rate g.arm_clk (g.raspberrypi_freq_table.getD index 0 * 1000) = 0 →
      (raspberrypi_cpufreq_set_clock env g policy index).1 = 0 ∧
      (raspberrypi_cpufreq_set_clock env g policy index).2.1.cur
        = g.raspberrypi_freq_table.getD index 0) ∧
    (env.clk_set_rate g.arm_clk (g.raspberrypi_freq_table.getD index 0 * 1000) ≠ 0 →
      (raspberrypi_cpufreq_set_clock env g policy index).1
        = env.clk_set_rate g.arm_clk (g.raspberrypi_freq_table.getD index 0 * 1000) ∧
      (raspberrypi_cpufreq_set_clock env g policy index).2.1 = policy) ∧
    g.raspberrypi_freq_table.getD 0 0 = min / 1000 ∧
    g.raspberrypi_freq_table.getD 1 0 = max / 1000 := by
  have h := set_clock_populated env g min max policy index hpop hi
  obtain ⟨_, _, htab⟩ := hpop
  refine ⟨?_, ?_, ?_, by rw [htab]; rfl, by rw [htab]; rfl⟩
  · rw [h]; split <;> rfl
  · intro h0; rw [h, if_neg (by simpa using h0)]; exact ⟨rfl, rfl⟩
  · intro h0; rw [h, if_pos h0]; exact ⟨rfl, rfl⟩

theorem C15_set_clock_witness :
    freq_table_populated globals_600_1200 600000000 1200000000 ∧
    (raspberrypi_cpufreq_set_clock (cpufreq_env 0) globals_600_1200 { cur := 5 } 1).2.2
      = [cpufreq_call.clk_set_rate (clk_ptr.ptr 4096) 1200000000] ∧
    (raspberrypi_cpufreq_set_clock (cpufreq_env 0) globals_600_1200 { cur := 5 } 1).2.1.cur
      = 1200000 ∧
    (raspberrypi_cpufreq_set_clock (cpufreq_env_set_fails 0) globals_600_1200
      { cur := 5 } 1).2.1 = { cur := 5 } :=
  ⟨⟨by decide, by decide, rfl⟩,
    (C15_set_clock (cpufreq_env 0) globals_600_1200 600000000 1200000000 { cur := 5 } 1
      ⟨by decide, by decide, rfl⟩ (by decide)).1,
    ((C15_set_clock (cpufreq_env 0) globals_600_1200 600000000 1200000000 { cur := 5 } 1
      ⟨by decide, by decide, rfl⟩ (by decide)).2.1 rfl).2,
    ((C15_set_clock (cpufreq_env_set_fails 0) globals_600_1200 600000000 1200000000
      { cur := 5 } 1 ⟨by decide, by decide, rfl⟩ (by decide)).2.2.1 (by decide)).2⟩

theorem u32_of_nat_lt (n : Nat) : u32_of_nat n < 2 ^ 32 := by
  unfold u32_of_nat
  exact Nat.mod_lt _ (by decide)

theorem probe_no_clock {σ : Type} (env : CpufreqEnv) (t : Transport σ) (g : cpufreq_globals)
    (w : World σ) (of_node : device_node) (hclk : IS_ERR (env.clk_get_sys "arm") = true) :
    raspberrypi_cpufreq_probe env t g w of_node
      = (-EPROBE_DEFER, { g with arm_clk := env.clk_get_sys "arm" }, w,
          [cpufreq_call.clk_get_sys "arm"]) := by
  simp only [raspberrypi_cpufreq_probe, hclk, if_true]

theorem probe_no_firmware {σ : Type} (env : CpufreqEnv) (t : Transport σ) (g : cpufreq_globals)
    (w : World σ) (of_node : device_node) (hclk : IS_ERR (env.clk_get_sys "arm") = false)
    (hfw : env.of_parse_phandle of_node "firmware" 0 = none) :
    raspberrypi_cpufreq_probe env t g w of_node
      = (-EPROBE_DEFER, { g with arm_clk := env.clk_get_sys "arm" }, w,
          [cpufreq_call.clk_get_sys "arm"]) := by
  simp only [raspberrypi_cpufreq_probe, hclk, hfw, Bool.false_eq_true, if_false]

theorem probe_min_fails {σ : Type} (env : CpufreqEnv) (t : Transport σ) (g : cpufreq_globals)
    (w : World σ) (of_node firmware_node : device_node)
    (hclk : IS_ERR (env.clk_get_sys "arm") = false)
    (hfw : env.of_parse_phandle of_node "firmware" 0 = some firmware_node)
    (hmin : (raspberrypi_firmware_property t w firmware_node
      RASPBERRYPI_FIRMWARE_GET_MIN_CLOCK_RATE (RASPBERRY_CLOCK_ARM, 0)).1 ≠ 0) :
    raspberrypi_cpufreq_probe env t g w of_node
      = ((raspberrypi_firmware_property t w firmware_node
            RASPBERRYPI_FIRMWARE_GET_MIN_CLOCK_RATE (RASPBERRY_CLOCK_ARM, 0)).1,
          { g with arm_clk := env.clk_get_sys "arm" },
          (raspberrypi_firmware_property t w firmware_node
            RASPBERRYPI_FIRMWARE_GET_MIN_CLOCK_RATE (RASPBERRY_CLOCK_ARM, 0)).2.2,
          [cpufreq_call.clk_get_sys "arm"]) := by
  simp only [raspberrypi_cpufreq_probe, hclk, hfw, Bool.false_eq_true, if_false,
    raspberrypi_clk_get_range, hmin, ne_eq, not_false_eq_true, if_true]

theorem probe_max_fails {σ : Type} (env : CpufreqEnv) (t : Transport σ) (g : cpufreq_globals)
    (w : World σ) (of_node firmware_node : device_node)
    (hclk : IS_ERR (env.clk_get_sys "arm") = false)
    (hfw : env.of_parse_phandle of_node "firmware" 0 = some firmware_node)
    (hmin : (raspberrypi_firmware_property t w firmware_node
      RASPBERRYPI_FIRMWARE_GET_MIN_CLOCK_RATE (RASPBERRY_CLOCK_ARM, 0)).1 = 0)
    (hmax : (raspberrypi_firmware_property t
      (raspberrypi_firmware_property t w firmware_node
        RASPBERRYPI_FIRMWARE_GET_MIN_CLOCK_RATE (RASPBERRY_CLOCK_ARM, 0)).2.2 firmware_node
      RASPBERRYPI_FIRMWARE_GET_MAX_CLOCK_RATE (RASPBERRY_CLOCK_ARM, 0)).1 ≠ 0) :
    raspberrypi_cpufreq_probe env t g w of_node
      = ((raspberrypi_firmware_property t
            (raspberrypi_firmware_property t w firmware_node
              RASPBERRYPI_FIRMWARE_GET_MIN_CLOCK_RATE (RASPBERRY_CLOCK_ARM, 0)).2.2
            firmware_node
            RASPBERRYPI_FIRMWARE_GET_MAX_CLOCK_RATE (RASPBERRY_CLOCK_ARM, 0)).1,
          { g with arm_clk := env.clk_get_sys "arm" },
          (raspberrypi_firmware_property t
            (raspberrypi_firmware_property t w firmware_node
              RASPBERRYPI_FIRMWARE_GET_MIN_CLOCK_RATE (RASPBERRY_CLOCK_ARM, 0)).2.2
            firmware_node
            RASPBERRYPI_FIRMWARE_GET_MAX_CLOCK_RATE (RASPBERRY_CLOCK_ARM, 0)).2.2,
          [cpufreq_call.clk_get_sys "arm"]) := by
  simp only [raspberrypi_cpufreq_probe, hclk, hfw, Bool.false_eq_true, if_false,
    raspberrypi_clk_get_range, hmin, ne_eq, not_true_eq_false, hmax, not_false_eq_true,
    if_true]

theorem probe_populates {σ : Type} (env : CpufreqEnv) (t : Transport σ) (g : cpufreq_globals)
    (w : World σ) (of_node firmware_node : device_node)
    (hclk : IS_ERR (env.clk_get_sys "arm") = false)
    (hfw : env.of_parse_phandle of_node "firmware" 0 = some firmware_node)
    (hmin : (raspberrypi_firmware_property t w firmware_node
      RASPBERRYPI_FIRMWARE_GET_MIN_CLOCK_RATE (RASPBERRY_CLOCK_ARM, 0)).1 = 0)
    (hmax : (raspberrypi_firmware_property t
      (raspberrypi_firmware_property t w firmware_node
        RASPBERRYPI_FIRMWARE_GET_MIN_CLOCK_RATE (RASPBERRY_CLOCK_ARM, 0)).2.2 firmware_node
      RASPBERRYPI_FIRMWARE_GET_MAX_CLOCK_RATE (RASPBERRY_CLOCK_ARM, 0)).1 = 0) :
    raspberrypi_cpufreq_probe env t g w of_node
      = (env.cpufreq_register_driver
            ((g.raspberrypi_freq_table.set 0
              (u32_of_nat ((raspberrypi_firmware_property t w firmware_node
                RASPBERRYPI_FIRMWARE_GET_MIN_CLOCK_RATE (RASPBERRY_CLOCK_ARM, 0)).2.1.2
                / 1000))).set 1
              (u32_of_nat ((raspberrypi_firmware_property t
                (raspberrypi_firmware_property t w firmware_node
                  RASPBERRYPI_FIRMWARE_GET_MIN_CLOCK_RATE (RASPBERRY_CLOCK_ARM, 0)).2.2
                firmware_node
                RASPBERRYPI_FIRMWARE_GET_MAX_CLOCK_RATE (RASPBERRY_CLOCK_ARM, 0)).2.1.2
                / 1000))),
          { raspberrypi_freq_table :=
              (g.raspberrypi_freq_table.set 0
                (u32_of_nat ((raspberrypi_firmware_property t w firmware_node
                  RASPBERRYPI_FIRMWARE_GET_MIN_CLOCK_RATE (RASPBERRY_CLOCK_ARM, 0)).2.1.2
                  / 1000))).set 1
                (u32_of_nat ((raspberrypi_firmware_property t
                  (raspberrypi_firmware_property t w firmware_node
                    RASPBERRYPI_FIRMWARE_GET_MIN_CLOCK_RATE (RASPBERRY_CLOCK_ARM, 0)).2.2
                  firmware_node
                  RASPBERRYPI_FIRMWARE_GET_MAX_CLOCK_RATE (RASPBERRY_CLOCK_ARM, 0)).2.1.2
                  / 1000)),
            arm_clk := env.clk_get_sys "arm" },
          (raspberrypi_firmware_property t
            (raspberrypi_firmware_property t w firmware_node
              RASPBERRYPI_FIRMWARE_GET_MIN_CLOCK_RATE (RASPBERRY_CLOCK_ARM, 0)).2.2
            firmware_node
            RASPBERRYPI_FIRMWARE_GET_MAX_CLOCK_RATE (RASPBERRY_CLOCK_ARM, 0)).2.2,
          [cpufreq_call.clk_get_sys "arm",
           cpufreq_call.cpufreq_register_driver
            ((g.raspberrypi_freq_table.set 0
              (u32_of_nat ((raspberrypi_firmware_property t w firmware_node
                RASPBERRYPI_FIRMWARE_GET_MIN_CLOCK_RATE (RASPBERRY_CLOCK_ARM, 0)).2.1.2
                / 1000))).set 1
              (u32_of_nat ((raspberrypi_firmware_property t
                (raspberrypi_firmware_property t w firmware_node
                  RASPBERRYPI_FIRMWARE_GET_MIN_CLOCK_RATE (RASPBERRY_CLOCK_ARM, 0)).2.2
                firmware_node
                RASPBERRYPI_FIRMWARE_GET_MAX_CLOCK_RATE (RASPBERRY_CLOCK_ARM, 0)).2.1.2
                / 1000)))]) := by
  simp only [raspberrypi_cpufreq_probe, hclk, hfw, Bool.false_eq_true, if_false,
    raspberrypi_clk_get_range, hmin, ne_eq, not_true_eq_false, hmax]

/-- C16: when the `arm` clock and the firmware node are found and the minimum query or,
after it, the maximum query fails, `raspberrypi_cpufreq_probe` returns the nonzero return
code of the failed query, does not call `cpufreq_register_driver`, and leaves
`raspberrypi_freq_table` exactly as it was. -/
theorem C16_range_query_failure {σ : Type} (env : CpufreqEnv) (t : Transport σ)
    (g : cpufreq_globals) (w : World σ) (of_node firmware_node : device_node)
    (hclk : IS_ERR (env.clk_get_sys "arm") = false)
    (hfw : env.of_parse_phandle of_node "firmware" 0 = some firmware_node)
    (hfail : (raspberrypi_firmware_property t w firmware_node
        RASPBERRYPI_FIRMWARE_GET_MIN_CLOCK_RATE (RASPBERRY_CLOCK_ARM, 0)).1 ≠ 0 ∨
      (raspberrypi_firmware_property t
        (raspberrypi_firmware_property t w firmware_node
          RASPBERRYPI_FIRMWARE_GET_MIN_CLOCK_RATE (RASPBERRY_CLOCK_ARM, 0)).2.2 firmware_node
        RASPBERRYPI_FIRMWARE_GET_MAX_CLOCK_RATE (RASPBERRY_CLOCK_ARM, 0)).1 ≠ 0) :
    (raspberrypi_cpufreq_probe env t g w of_node).1 ≠ 0 ∧
    (raspberrypi_cpufreq_probe env t g w of_node).1
      = (if (raspberrypi_firmware_property t w firmware_node
            RASPBERRYPI_FIRMWARE_GET_MIN_CLOCK_RATE (RASPBERRY_CLOCK_ARM, 0)).1 ≠ 0
        then (raspberrypi_firmware_property t w firmware_node
            RASPBERRYPI_FIRMWARE_GET_MIN_CLOCK_RATE (RASPBERRY_CLOCK_ARM, 0)).1
        else (raspberrypi_firmware_property t
            (raspberrypi_firmware_property t w firmware_node
              RASPBERRYPI_FIRMWARE_GET_MIN_CLOCK_RATE (RASPBERRY_CLOCK_ARM, 0)).2.2
            firmware_node
            RASPBERRYPI_FIRMWARE_GET_MAX_CLOCK_RATE (RASPBERRY_CLOCK_ARM, 0)).1) ∧
    (raspberrypi_cpufreq_probe env t g w of_node).2.1.raspberrypi_freq_table
      = g.raspberrypi_freq_table ∧
    (raspberrypi_cpufreq_probe env t g w of_node).2.2.2 = [cpufreq_call.clk_get_sys "arm"] ∧
    List.countP cpufreq_call.is_register
      (raspberrypi_cpufreq_probe env t g w of_node).2.2.2 = 0 := by
  by_cases hmin : (raspberrypi_firmware_property t w firmware_node
      RASPBERRYPI_FIRMWARE_GET_MIN_CLOCK_RATE (RASPBERRY_CLOCK_ARM, 0)).1 ≠ 0
  · rw [probe_min_fails env t g w of_node firmware_node hclk hfw hmin, if_pos hmin]
    exact ⟨hmin, rfl, rfl, rfl, rfl⟩
  · have hmax := hfail.resolve_left hmin
    have hmin0 := not_not.mp hmin
    rw [probe_max_fails env t g w of_node firmware_node hclk hfw hmin0 hmax, if_neg hmin]
    exact ⟨hmax, rfl, rfl, rfl, rfl⟩

theorem C16_range_query_failure_witness :
    (raspberrypi_cpufreq_probe (cpufreq_env 0) max_fails_transport cpufreq_globals_init
      world0 9).1 = -5 ∧
    (raspberrypi_cpufreq_probe (cpufreq_env 0) max_fails_transport cpufreq_globals_init
      world0 9).2.1.raspberrypi_freq_table = [0, 0, CPUFREQ_TABLE_END] ∧
    (raspberrypi_cpufreq_probe (cpufreq_env 0) max_fails_transport cpufreq_globals_init
      world0 9).2.2.2 = [cpufreq_call.clk_get_sys "arm"] :=
  ⟨(C16_range_query_failure (cpufreq_env 0) max_fails_transport cpufreq_globals_init
      world0 9 7 rfl rfl (Or.inr (by decide))).2.1,
    (C16_range_query_failure (cpufreq_env 0) max_fails_transport cpufreq_globals_init
      world0 9 7 rfl rfl (Or.inr (by decide))).2.2.1,
    (C16_range_query_failure (cpufreq_env 0) max_fails_transport cpufreq_globals_init
      world0 9 7 rfl rfl (Or.inr (by decide))).2.2.2.1⟩

theorem probe_table_cases {σ : Type} (env : CpufreqEnv) (t : Transport σ) (g : cpufreq_globals)
    (w : World σ) (of_node : device_node) (a b : Nat)
    (htab : g.raspberrypi_freq_table = [a, b, CPUFREQ_TABLE_END]) :
    ((raspberrypi_cpufreq_probe env t g w of_node).2.1.raspberrypi_freq_table
        = g.raspberrypi_freq_table ∧
      (raspberrypi_cpufreq_probe env t g w of_node).1 ≠ 0 ∧
      (raspberrypi_cpufreq_probe env t g w of_node).2.2.2 = [cpufreq_call.clk_get_sys "arm"]) ∨
    (∃ (firmware_node : device_node) (min max : Nat),
      env.of_parse_phandle of_node "firmware" 0 = some firmware_node ∧
      (raspberrypi_firmware_property t w firmware_node
        RASPBERRYPI_FIRMWARE_GET_MIN_CLOCK_RATE (RASPBERRY_CLOCK_ARM, 0)).2.1.2 = min ∧
      (raspberrypi_firmware_property t
        (raspberrypi_firmware_property t w firmware_node
          RASPBERRYPI_FIRMWARE_GET_MIN_CLOCK_RATE (RASPBERRY_CLOCK_ARM, 0)).2.2 firmware_node
        RASPBERRYPI_FIRMWARE_GET_MAX_CLOCK_RATE (RASPBERRY_CLOCK_ARM, 0)).2.1.2 = max ∧
      freq_table_populated (raspberrypi_cpufreq_probe env t g w of_node).2.1 min max ∧
      (raspberrypi_cpufreq_probe env t g w of_node).2.2.2
        = [cpufreq_call.clk_get_sys "arm",
           cpufreq_call.cpufreq_register_driver [min / 1000, max / 1000, CPUFREQ_TABLE_END]] ∧
      (raspberrypi_cpufreq_probe env t g w of_node).1
        = env.cpufreq_register_driver [min / 1000, max / 1000, CPUFREQ_TABLE_END]) := by
  cases hclk : IS_ERR (env.clk_get_sys "arm") with
  | true =>
    left
    rw [probe_no_clock env t g w of_node hclk]
    exact ⟨rfl, by simp [EPROBE_DEFER], rfl⟩
  | false =>
    cases hfw : env.of_parse_phandle of_node "firmware" 0 with
    | none =>
      left
      rw [probe_no_firmware env t g w of_node hclk hfw]
      exact ⟨rfl, by simp [EPROBE_DEFER], rfl⟩
    | some firmware_node =>
      by_cases hmin : (raspberrypi_firmware_property t w firmware_node
          RASPBERRYPI_FIRMWARE_GET_MIN_CLOCK_RATE (RASPBERRY_CLOCK_ARM, 0)).1 = 0
      · by_cases hmax : (raspberrypi_firmware_property t
            (raspberrypi_firmware_property t w firmware_node
              RASPBERRYPI_FIRMWARE_GET_MIN_CLOCK_RATE (RASPBERRY_CLOCK_ARM, 0)).2.2
            firmware_node
            RASPBERRYPI_FIRMWARE_GET_MAX_CLOCK_RATE (RASPBERRY_CLOCK_ARM, 0)).1 = 0
        · right
          have hlo : (raspberrypi_firmware_property t w firmware_node
              RASPBERRYPI_FIRMWARE_GET_MIN_CLOCK_RATE (RASPBERRY_CLOCK_ARM, 0)).2.1.2
              < 2 ^ 32 := u32_of_nat_lt _
          have hhi : (raspberrypi_firmware_property t
              (raspberrypi_firmware_property t w firmware_node
                RASPBERRYPI_FIRMWARE_GET_MIN_CLOCK_RATE (RASPBERRY_CLOCK_ARM, 0)).2.2
              firmware_node
              RASPBERRYPI_FIRMWARE_GET_MAX_CLOCK_RATE (RASPBERRY_CLOCK_ARM, 0)).2.1.2
              < 2 ^ 32 := u32_of_nat_lt _
          have hu : ∀ n : Nat, n < 2 ^ 32 → u32_of_nat (n / 1000) = n / 1000 := by
            intro n hn
            unfold u32_of_nat
            apply Nat.mod_eq_of_lt
            omega
          refine ⟨firmware_node, _, _, rfl, rfl, rfl, ?_, ?_, ?_⟩
          · refine ⟨hlo, hhi, ?_⟩
            rw [probe_populates env t g w of_node firmware_node hclk hfw hmin hmax]
            simp only [htab, List.set_cons_zero, List.set_cons_succ, hu _ hlo, hu _ hhi]
          · rw [probe_populates env t g w of_node firmware_node hclk hfw hmin hmax]
            simp only [htab, List.set_cons_zero, List.set_cons_succ, hu _ hlo, hu _ hhi]
          · rw [probe_populates env t g w of_node firmware_node hclk hfw hmin hmax]
            simp only [htab, List.set_cons_zero, List.set_cons_succ, hu _ hlo, hu _ hhi]
        · left
          rw [probe_max_fails env t g w of_node firmware_node hclk hfw hmin hmax]
          exact ⟨rfl, hmax, rfl⟩
      · left
        rw [probe_min_fails env t g w of_node firmware_node hclk hfw hmin]
        exact ⟨rfl, hmin, rfl⟩

theorem probe_seq_table {σ : Type} (calls : List (ProbeCall σ)) :
    ∀ (g : cpufreq_globals) (w : World σ),
      (g.raspberrypi_freq_table = [0, 0, CPUFREQ_TABLE_END] ∨
        ∃ min max, freq_table_populated g min max) →
      ((probe_seq g w calls).1.raspberrypi_freq_table = [0, 0, CPUFREQ_TABLE_END] ∨
        ∃ min max, freq_table_populated (probe_seq g w calls).1 min max) := by
  induction calls with
  | nil => intro g w h; exact h
  | cons c rest ih =>
    intro g w h
    simp only [probe_seq]
    apply ih
    have hab : ∃ a b, g.raspberrypi_freq_table = [a, b, CPUFREQ_TABLE_END] := by
      rcases h with h | ⟨min, max, _, _, h⟩
      · exact ⟨_, _, h⟩
      · exact ⟨_, _, h⟩
    obtain ⟨a, b, hab⟩ := hab
    rcases probe_table_cases c.env c.transport g w c.of_node a b hab with
      ⟨h1, _, _⟩ | ⟨_, min, max, _, _, _, hpop, _, _⟩
    · rcases h with h | ⟨min, max, h2, h3, h4⟩
      · left; rw [h1]; exact h
      · right; exact ⟨min, max, h2, h3, by rw [h1]; exact h4⟩
    · right; exact ⟨min, max, hpop⟩

/-- C17, as stated, fails: when the firmware answers the minimum query with 1200 MHz and
the maximum query with 600 MHz, the probe populates the table with 1200000 and 600000,
so that the low entry exceeds the high one, and registers the driver with it. -/
theorem C17_counterexample :
    (raspberrypi_cpufreq_probe (cpufreq_env 0) swapped_range_transport cpufreq_globals_init
      world0 9).2.1.raspberrypi_freq_table = [1200000, 600000, CPUFREQ_TABLE_END] ∧
    (raspberrypi_cpufreq_probe (cpufreq_env 0) swapped_range_transport cpufreq_globals_init
      world0 9).2.2.2
      = [cpufreq_call.clk_get_sys "arm",
         cpufreq_call.cpufreq_register_driver [1200000, 600000, CPUFREQ_TABLE_END]] ∧
    ¬ ((raspberrypi_cpufreq_probe (cpufreq_env 0) swapped_range_transport cpufreq_globals_init
        world0 9).2.1.raspberrypi_freq_table.getD 0 0
      ≤ (raspberrypi_cpufreq_probe (cpufreq_env 0) swapped_range_transport cpufreq_globals_init
        world0 9).2.1.raspberrypi_freq_table.getD 1 0) := by
  refine ⟨by decide, by decide, by decide⟩

/-- C17, amended: a probe on a table whose terminator is in place either leaves the table
as it was, returns an error and does not register the driver, or populates it with
`low = min / 1000`, `high = max / 1000` and the terminator, `min` and `max` being the
second words of the two firmware responses, and calls `cpufreq_register_driver` with that
table; `low ≤ high` holds whenever `min ≤ max`.  Hence after every sequence of probes from
the initial variables the table is fully unpopulated or fully populated. -/
theorem C17_table_all_or_nothing {σ : Type} (env : CpufreqEnv) (t : Transport σ)
    (g : cpufreq_globals) (w : World σ) (of_node : device_node) (a b : Nat)
    (htab : g.raspberrypi_freq_table = [a, b, CPUFREQ_TABLE_END]) :
    (((raspberrypi_cpufreq_probe env t g w of_node).2.1.raspberrypi_freq_table
        = g.raspberrypi_freq_table ∧
      (raspberrypi_cpufreq_probe env t g w of_node).1 ≠ 0 ∧
      List.countP cpufreq_call.is_register
        (raspberrypi_cpufreq_probe env t g w of_node).2.2.2 = 0) ∨
    (∃ (firmware_node : device_node) (min max : Nat),
      env.of_parse_phandle of_node "firmware" 0 = some firmware_node ∧
      (raspberrypi_firmware_property t w firmware_node
        RASPBERRYPI_FIRMWARE_GET_MIN_CLOCK_RATE (RASPBERRY_CLOCK_ARM, 0)).2.1.2 = min ∧
      (raspberrypi_firmware_property t
        (raspberrypi_firmware_property t w firmware_node
          RASPBERRYPI_FIRMWARE_GET_MIN_CLOCK_RATE (RASPBERRY_CLOCK_ARM, 0)).2.2 firmware_node
        RASPBERRYPI_FIRMWARE_GET_MAX_CLOCK_RATE (RASPBERRY_CLOCK_ARM, 0)).2.1.2 = max ∧
      freq_table_populated (raspberrypi_cpufreq_probe env t g w of_node).2.1 min max ∧
      (raspberrypi_cpufreq_probe env t g w of_node).2.2.2
        = [cpufreq_call.clk_get_sys "arm",
           cpufreq_call.cpufreq_register_driver [min / 1000, max / 1000, CPUFREQ_TABLE_END]] ∧
      (min ≤ max → min / 1000 ≤ max / 1000))) ∧
    (∀ (calls : List (ProbeCall σ)),
      (probe_seq cpufreq_globals_init w calls).1.raspberrypi_freq_table
          = [0, 0, CPUFREQ_TABLE_END] ∨
        ∃ min max, freq_table_populated (probe_seq cpufreq_globals_init w calls).1 min max) := by
  refine ⟨?_, fun calls => probe_seq_table calls cpufreq_globals_init w (Or.inl rfl)⟩
  rcases probe_table_cases env t g w of_node a b htab with
    ⟨h1, h2, h3⟩ | ⟨fw, min, max, hfw, hmin, hmax, hpop, hcalls, _⟩
  · left
    exact ⟨h1, h2, by rw [h3]; rfl⟩
  · right
    exact ⟨fw, min, max, hfw, hmin, hmax, hpop, hcalls, fun h => Nat.div_le_div_right h⟩

theorem C17_table_all_or_nothing_witness :
    cpufreq_globals_init.raspberrypi_freq_table = [0, 0, CPUFREQ_TABLE_END] ∧
    ((probe_seq cpufreq_globals_init world0
        [⟨cpufreq_env 0, max_fails_transport, 9⟩, ⟨cpufreq_env 0, range_transport, 9⟩]
      ).1.raspberrypi_freq_table = [0, 0, CPUFREQ_TABLE_END] ∨
      ∃ min max, freq_table_populated (probe_seq cpufreq_globals_init world0
        [⟨cpufreq_env 0, max_fails_transport, 9⟩, ⟨cpufreq_env 0, range_transport, 9⟩]).1
        min max) :=
  ⟨rfl,
    (C17_table_all_or_nothing (cpufreq_env 0) range_transport cpufreq_globals_init world0 9
      0 0 rfl).2 _⟩

/-- C18: `rpi_clocks` has ten entries, each designated initialiser of the source sits at
the index its `RPI_CLOCK_` macro names, and the names in index order are emmc, uart0,
arm, core, v3d, h264, isp, sdram, pixel, pwm; the firmware identifiers are pairwise
distinct and the one at index `i` is `i + 1`, hence never `i`; the identifier
`RASPBERRY_CLOCK_ARM` that `raspberrypi_clk_get_range` puts in the first word of both
range queries is 3, the `clock_id` of the entry at `RPI_CLOCK_ARM`, not the index 2. -/
theorem C18_descriptor_table {σ : Type} (t : Transport σ) (w : World σ) (of_node : device_node)
    (min max : Nat) :
    ARRAY_SIZE rpi_clocks = 10 ∧
    (∀ p ∈ rpi_clocks_designated, rpi_clocks[p.1]? = some p.2) ∧
    rpi_clocks.map (fun c => c.name)
      = ["emmc", "uart0", "arm", "core", "v3d", "h264", "isp", "sdram", "pixel", "pwm"] ∧
    (rpi_clocks.map (fun c => c.clock_id)).Nodup ∧
    (∀ i, i < 10 → (rpi_clocks.map (fun c => c.clock_id))[i]? = some (Int.ofNat i + 1)) ∧
    (∀ i, i < 10 → (rpi_clocks.map (fun c => c.clock_id))[i]? ≠ some (Int.ofNat i)) ∧
    (rpi_clocks.map (fun c => c.clock_id))[RPI_CLOCK_ARM]?
      = some (Int.ofNat RASPBERRY_CLOCK_ARM) ∧
    (rpi_clocks.map (fun c => c.name))[RPI_CLOCK_ARM]? = some "arm" ∧
    RASPBERRY_CLOCK_ARM = 3 ∧ RPI_CLOCK_ARM = 2 ∧
    (∃ rest, (raspberrypi_clk_get_range t w of_node min max).2.2.2.events
      = w.events ++ Event.rpi_firmware_property (some of_node)
          RASPBERRYPI_FIRMWARE_GET_MIN_CLOCK_RATE (RASPBERRY_CLOCK_ARM, 0) :: rest ∧
      (rest = [] ∨ rest = [Event.rpi_firmware_property (some of_node)
          RASPBERRYPI_FIRMWARE_GET_MAX_CLOCK_RATE (RASPBERRY_CLOCK_ARM, 0)])) := by
  refine ⟨by decide, by decide, by decide, by decide, by decide, by decide, by decide,
    by decide, rfl, rfl, ?_⟩
  unfold raspberrypi_clk_get_range
  simp only
  split
  · exact ⟨[], by simp [raspberrypi_firmware_property, rpi_firmware_property], Or.inl rfl⟩
  · split
    · exact ⟨_, by simp [raspberrypi_firmware_property, rpi_firmware_property], Or.inr rfl⟩
    · exact ⟨_, by simp [raspberrypi_firmware_property, rpi_firmware_property], Or.inr rfl⟩

theorem C18_descriptor_table_witness :
    ARRAY_SIZE rpi_clocks = 10 ∧
    (rpi_clocks.map (fun c => c.clock_id))[RPI_CLOCK_ARM]?
      = some (Int.ofNat RASPBERRY_CLOCK_ARM) :=
  ⟨(C18_descriptor_table range_transport world0 7 0 0).1,
    (C18_descriptor_table range_transport world0 7 0 0).2.2.2.2.2.2.1⟩

theorem set_clock_request (env : CpufreqEnv) (g : cpufreq_globals) (min max : Nat)
    (policy : cpufreq_policy) (index : Nat)
    (hpop : freq_table_populated g min max) (hi : index < 2) :
    (raspberrypi_cpufreq_set_clock env g policy index).2.2
      = [cpufreq_call.clk_set_rate g.arm_clk
          (g.raspberrypi_freq_table.getD index 0 * 1000)] := by
  rw [set_clock_populated env g min max policy index hpop hi]
  split <;> rfl

/-- C19: on a table populated with `low ≤ high` and for an index `i` of 0 or 1, when
`clk_get_rate` reports exactly the rate `raspberrypi_cpufreq_set_clock` requested for
`i`, `raspberrypi_cpufreq_get_clock` returns `table[i].frequency`, except exactly when
`i = 0` and `high = low + 1`: there the midpoint `(low + high) / 2` is `low` and the
function returns `high`. -/
theorem C19_level_round_trip (env : CpufreqEnv) (g : cpufreq_globals) (min max : Nat)
    (policy : cpufreq_policy) (index cpu : Nat)
    (hpop : freq_table_populated g min max) (hle : min / 1000 ≤ max / 1000)
    (hi : index < 2)
    (hfaith : (raspberrypi_cpufreq_set_clock env g policy index).2.2
      = [cpufreq_call.clk_set_rate g.arm_clk (env.clk_get_rate g.arm_clk)]) :
    (raspberrypi_cpufreq_get_clock env g cpu ≠ g.raspberrypi_freq_table.getD index 0 ↔
      (index = 0 ∧ max / 1000 = min / 1000 + 1)) ∧
    (index = 0 → max / 1000 = min / 1000 + 1 →
      (min / 1000 + max / 1000) / 2 = min / 1000 ∧
      raspberrypi_cpufreq_get_clock env g cpu = max / 1000) := by
  have hreq := set_clock_request env g min max policy index hpop hi
  rw [hreq] at hfaith
  have hrate : env.clk_get_rate g.arm_clk = g.raspberrypi_freq_table.getD index 0 * 1000 := by
    simp only [List.cons.injEq, cpufreq_call.clk_set_rate.injEq, true_and, and_true]
      at hfaith
    exact hfaith.symm
  have hget := get_clock_populated env g min max cpu hpop
  obtain ⟨_, _, htab⟩ := hpop
  rw [hrate, Nat.mul_div_cancel _ (by decide : 0 < 1000)] at hget
  rw [hget, htab]
  rcases Nat.lt_succ_iff_lt_or_eq.mp hi with h | h
  · have h0 : index = 0 := by omega
    subst h0
    simp only [List.getD_cons_zero, true_and, forall_const]
    by_cases hlt : min / 1000 < (min / 1000 + max / 1000) / 2
    · simp only [hlt, if_true, ne_eq, not_true_eq_false, false_iff]
      constructor
      · omega
      · intro h1; omega
    · simp only [hlt, if_false]
      constructor
      · constructor
        · intro hne; omega
        · intro heq; omega
      · intro h1
        exact ⟨by omega, trivial⟩
  · subst h
    simp only [List.getD_cons_succ, List.getD_cons_zero]
    have hge : ¬ max / 1000 < (min / 1000 + max / 1000) / 2 := by omega
    simp only [hge, if_false, ne_eq, not_true_eq_false, false_iff]
    constructor
    · omega
    · intro h1; omega

theorem C19_level_round_trip_witness :
    freq_table_populated globals_600_1200 600000000 1200000000 ∧
    raspberrypi_cpufreq_get_clock (cpufreq_env 600000000) globals_600_1200 0 = 600000 :=
  ⟨⟨by decide, by decide, rfl⟩,
    not_not.mp (mt
      (C19_level_round_trip (cpufreq_env 600000000) globals_600_1200 600000000 1200000000
        { cur := 0 } 0 0 ⟨by decide, by decide, rfl⟩ (by decide) (by decide) rfl).1.mp
      (by decide))⟩

/-- C20: for firmware bounds `min` and `max` that are `u32` words and a table populated
with `low = min / 1000` and `high = max / 1000`, the `unsigned int` sum `low + high` of
`raspberrypi_cpufreq_get_clock` and the `unsigned int` products `low * 1000` and
`high * 1000` of `raspberrypi_cpufreq_set_clock` stay below `2 ^ 32`, so the functions
compute with the exact integers, and the rate requested for an entry never exceeds the
firmware bound the entry came from. -/
theorem C20_no_overflow (env : CpufreqEnv) (g : cpufreq_globals) (min max : Nat)
    (policy : cpufreq_policy) (cpu : Nat)
    (hpop : freq_table_populated g min max) :
    min / 1000 + max / 1000 < 2 ^ 32 ∧
    (min / 1000 + max / 1000) % 2 ^ 32 = min / 1000 + max / 1000 ∧
    min / 1000 * 1000 < 2 ^ 32 ∧ max / 1000 * 1000 < 2 ^ 32 ∧
    min / 1000 * 1000 % 2 ^ 32 = min / 1000 * 1000 ∧
    max / 1000 * 1000 % 2 ^ 32 = max / 1000 * 1000 ∧
    min / 1000 * 1000 ≤ min ∧ max / 1000 * 1000 ≤ max ∧
    raspberrypi_cpufreq_get_clock env g cpu
      = (if env.clk_get_rate g.arm_clk / 1000 < (min / 1000 + max / 1000) / 2
        then min / 1000 else max / 1000) ∧
    (raspberrypi_cpufreq_set_clock env g policy 0).2.2
      = [cpufreq_call.clk_set_rate g.arm_clk (min / 1000 * 1000)] ∧
    (raspberrypi_cpufreq_set_clock env g policy 1).2.2
      = [cpufreq_call.clk_set_rate g.arm_clk (max / 1000 * 1000)] := by
  have hget := get_clock_populated env g min max cpu hpop
  have h0 := set_clock_request env g min max policy 0 hpop (by decide)
  have h1 := set_clock_request env g min max policy 1 hpop (by decide)
  obtain ⟨hmin, hmax, htab⟩ := hpop
  rw [htab] at h0 h1
  simp only [List.getD_cons_zero, List.getD_cons_succ] at h0 h1
  have hs : min / 1000 + max / 1000 < 2 ^ 32 := by omega
  have hp0 : min / 1000 * 1000 < 2 ^ 32 := by omega
  have hp1 : max / 1000 * 1000 < 2 ^ 32 := by omega
  exact ⟨hs, Nat.mod_eq_of_lt hs, hp0, hp1, Nat.mod_eq_of_lt hp0, Nat.mod_eq_of_lt hp1,
    Nat.div_mul_le_self _ _, Nat.div_mul_le_self _ _, hget, h0, h1⟩

theorem C20_no_overflow_witness :
    freq_table_populated globals_600_1200 600000000 1200000000 ∧
    (raspberrypi_cpufreq_set_clock (cpufreq_env 0) globals_600_1200 { cur := 0 } 1).2.2
      = [cpufreq_call.clk_set_rate (clk_ptr.ptr 4096) (1200000000 / 1000 * 1000)] :=
  ⟨⟨by decide, by decide, rfl⟩,
    (C20_no_overflow (cpufreq_env 0) globals_600_1200 600000000 1200000000 { cur := 0 } 0
      ⟨by decide, by decide, rfl⟩).2.2.2.2.2.2.2.2.2.2⟩

end RaspberryPiClk
